import Mathlib

/-!
Verification development for the `deep-vibe-2026` portfolio repository.

The heart of the repository is `src/schemas/profile.schema.ts`, a zod schema
(`ProfileSchema`) validating a JSON content document, together with the pure
rendering helpers `formatPeriod` (in `TimelineItem.tsx` and `EducationCard`)
and `parseNumericValue` / `CountUp` (impact-stat count-up display).

This file shallowly embeds those parts:
 * `Json` models a JavaScript value produced by parsing a JSON document.
   A `Json.obj` field list stands for a JS object, so keys are unique;
   an absent key models `undefined`, `Json.null` models `null`.
 * each zod schema `XSchema` becomes a Lean function `parseX : Json → ZRes T`
   returning either the typed value (with zod defaults applied and unknown
   keys stripped, as zod does) or the aggregated list of issues, where an
   `Issue` carries the zod error path and a message.  Following zod,
   object/array parsing does not short-circuit: issues of all fields and all
   elements are collected, and the `.refine` at the end of `ProfileSchema`
   runs only when the base object parse succeeded.
   Issue messages are abbreviated forms of zod's texts, except the custom
   `.refine` message which is kept verbatim from the source.
 * JS numbers are modelled as rationals (`ℚ`); none of the validated
   documents exercise float rounding, NaN or infinities.
 * `z.string().url()` delegates to the JS `new URL(...)` constructor; it is
   modelled by `jsUrlParses`, which follows the WHATWG basic URL parser
   without a base URL: leading/trailing C0 controls and spaces are trimmed
   and tabs and newlines removed everywhere, a scheme (a letter, then
   letters, digits, plus, minus or dot, then a colon) is required, the
   special schemes `http(s)`, `ws(s)` and `ftp` skip any run of slashes and
   then demand a valid non-empty host (the authority splits at its last
   `@` and fails when nothing follows, a bracketed host must be valid IPv6,
   a percent-decoded domain must avoid the forbidden domain code points and
   — when it ends in a number — parse as IPv4, a port must be numeric and
   at most 65535), `file` applies its Windows-drive-letter and host quirks,
   and every other scheme validates an authority only after `//` and
   otherwise accepts any path.  The IDNA domain-to-ASCII mapping is
   modelled as the identity (never failing on non-forbidden code points):
   every string these theorems evaluate is ASCII.
 * `z.string().datetime()` is the zod regex
   `^\d{4}-\d{2}-\d{2}T\d{2}:\d{2}:\d{2}(\.\d+)?Z$`, embedded as
   `isZodDatetime`.
-/

namespace Portfolio

/-- A JSON-compatible JavaScript value.  `obj` lists the own enumerable
string keys of a JS object (unique, insertion order). -/
inductive Json where
  | null : Json
  | bool (b : Bool) : Json
  | num (q : ℚ) : Json
  | str (s : String) : Json
  | arr (elems : List Json) : Json
  | obj (fields : List (String × Json)) : Json

/-- One step of a zod error path: an object key or an array index. -/
inductive Seg where
  | field (name : String) : Seg
  | idx (i : Nat) : Seg
  deriving DecidableEq, Repr

/-- One zod issue: the path to the offending value plus a message. -/
structure Issue where
  path : List Seg
  message : String
  deriving DecidableEq, Repr

/-- Result of parsing with a zod schema: the typed value, or all issues. -/
abbrev ZRes (α : Type) := Except (List Issue) α

instance {ε α : Type} [DecidableEq ε] [DecidableEq α] : DecidableEq (Except ε α)
  | .ok a, .ok b =>
      if h : a = b then .isTrue (by rw [h])
      else .isFalse (by intro c; cases c; exact h rfl)
  | .ok _, .error _ => .isFalse (by intro c; cases c)
  | .error _, .ok _ => .isFalse (by intro c; cases c)
  | .error e, .error f =>
      if h : e = f then .isTrue (by rw [h])
      else .isFalse (by intro c; cases c; exact h rfl)

/-- The issues of a result (none on success). -/
def errs {α : Type} : ZRes α → List Issue
  | .ok _ => []
  | .error es => es

/-- Parse two independent components, collecting issues from both sides
(this is how zod aggregates issues across object fields). -/
def zip2 {α β : Type} : ZRes α → ZRes β → ZRes (α × β)
  | .ok a, .ok b => .ok (a, b)
  | ra, rb => .error (errs ra ++ errs rb)

/-- Re-root the issues of a sub-parse under one extra path segment. -/
def withSeg {α : Type} (s : Seg) : ZRes α → ZRes α
  | .ok a => .ok a
  | .error es => .error (es.map fun i => ⟨s :: i.path, i.message⟩)

/-- Key lookup in a JS object (keys are unique, so first match). -/
def jGet : List (String × Json) → String → Option Json
  | [], _ => none
  | (k', v) :: rest, k => if k' = k then some v else jGet rest k

/-- A required object field: absent means zod's `Required` issue. -/
def reqField {α : Type} (o : List (String × Json)) (k : String)
    (p : Json → ZRes α) : ZRes α :=
  match jGet o k with
  | none => .error [⟨[Seg.field k], "Required"⟩]
  | some v => withSeg (Seg.field k) (p v)

/-- An `.optional()` object field: absent parses to `none`. -/
def optField {α : Type} (o : List (String × Json)) (k : String)
    (p : Json → ZRes α) : ZRes (Option α) :=
  match jGet o k with
  | none => .ok none
  | some v => (withSeg (Seg.field k) (p v)).map some

/-- A field with `.default(d)`: absent parses to the default value. -/
def defField {α : Type} (o : List (String × Json)) (k : String) (d : α)
    (p : Json → ZRes α) : ZRes α :=
  match jGet o k with
  | none => .ok d
  | some v => withSeg (Seg.field k) (p v)

/-- `z.string()`. -/
def parseStr : Json → ZRes String
  | .str s => .ok s
  | _ => .error [⟨[], "Expected string"⟩]

/-- A string schema with one extra check (`.url()`, `.datetime()`). -/
def parseStrCheck (check : String → Bool) (msg : String) : Json → ZRes String
  | .str s => if check s then .ok s else .error [⟨[], msg⟩]
  | _ => .error [⟨[], "Expected string"⟩]

/-- `z.boolean()`. -/
def parseBool : Json → ZRes Bool
  | .bool b => .ok b
  | _ => .error [⟨[], "Expected boolean"⟩]

/-- `z.number()`. -/
def parseNum : Json → ZRes ℚ
  | .num q => .ok q
  | _ => .error [⟨[], "Expected number"⟩]

/-- `z.number().min(lo).max(hi)` — both failed checks are reported,
and there is no integrality check. -/
def parseNumRange (lo hi : ℚ) : Json → ZRes ℚ
  | .num q =>
      match (if q < lo then [(⟨[], "Number too small"⟩ : Issue)] else []) ++
            (if hi < q then [(⟨[], "Number too big"⟩ : Issue)] else []) with
      | [] => .ok q
      | es => .error es
  | _ => .error [⟨[], "Expected number"⟩]

/-- `z.enum([...])`: case-sensitive membership in a fixed literal set. -/
def parseEnum (allowed : List String) : Json → ZRes String
  | .str s =>
      if allowed.contains s then .ok s
      else .error [⟨[], "Invalid enum value"⟩]
  | _ => .error [⟨[], "Expected string"⟩]

/-- `.nullable()`: `null` parses to `none`. -/
def parseNullable {α : Type} (p : Json → ZRes α) : Json → ZRes (Option α)
  | .null => .ok none
  | j => (p j).map some

/-- Parse every element of an array (zod parses all elements and keeps all
their issues), indexing issues from position `n`. -/
def parseElems {α : Type} (p : Json → ZRes α) : Nat → List Json → ZRes (List α)
  | _, [] => .ok []
  | n, x :: xs =>
      (zip2 (withSeg (Seg.idx n) (p x)) (parseElems p (n + 1) xs)).map
        fun (a, as) => a :: as

/-- The `.min`/`.max` cardinality issues of `z.array`, reported at the
array's own path. -/
def sizeIssues (lo hi : Option Nat) (len : Nat) : List Issue :=
  (match lo with
   | some n => if len < n then [(⟨[], "Array too small"⟩ : Issue)] else []
   | none => []) ++
  (match hi with
   | some n => if n < len then [(⟨[], "Array too big"⟩ : Issue)] else []
   | none => [])

/-- `z.array(p)` with optional `.min`/`.max`: size issues come first, then
the issues of every element. -/
def parseArrSized {α : Type} (lo hi : Option Nat) (p : Json → ZRes α) :
    Json → ZRes (List α)
  | .arr xs =>
      match sizeIssues lo hi xs.length, parseElems p 0 xs with
      | [], r => r
      | es, r => .error (es ++ errs r)
  | _ => .error [⟨[], "Expected array"⟩]

/-- `z.array(p)` without size bounds. -/
def parseArr {α : Type} (p : Json → ZRes α) : Json → ZRes (List α) :=
  parseArrSized none none p

/-! ### Model of the WHATWG `new URL(s)` constructor

`z.string().url()` succeeds exactly when `new URL(input)` does not throw.
The definitions below follow the WHATWG basic URL parser (no base URL)
state by state; the IDNA domain-to-ASCII mapping is modelled as the
identity and never fails on non-forbidden code points. -/

/-- Decimal digits to a natural number. -/
def digitsToNat (cs : List Char) : Nat :=
  cs.foldl (fun n c => 10 * n + (c.toNat - '0'.toNat)) 0

/-- Split a character list at every occurrence of a separator (JS
`String.prototype.split` with a one-character separator). -/
def splitCharsOn (c : Char) : List Char → List (List Char)
  | [] => [[]]
  | x :: xs =>
      match splitCharsOn c xs with
      | [] => [[]]
      | cur :: rest => if x = c then [] :: cur :: rest else (x :: cur) :: rest

/-- A C0 control or the space character, trimmed from both ends of the
URL input. -/
def c0OrSpace (c : Char) : Bool := c.toNat ≤ 32

/-- ASCII tab or newline, removed everywhere in the URL input. -/
def tabOrNewline (c : Char) : Bool :=
  c.toNat == 9 || c.toNat == 10 || c.toNat == 13

/-- WHATWG URL input preprocessing: trim leading/trailing C0 controls and
spaces, then remove every tab and newline. -/
def urlPreprocess (cs : List Char) : List Char :=
  (((cs.dropWhile c0OrSpace).reverse.dropWhile c0OrSpace).reverse).filter
    fun c => !tabOrNewline c

/-- ASCII lower-casing of one character (schemes are case-insensitive). -/
def lowerChar (c : Char) : Char :=
  if 65 ≤ c.toNat && c.toNat ≤ 90 then Char.ofNat (c.toNat + 32) else c

/-- A character allowed after the first position of a URL scheme. -/
def schemeChar (c : Char) : Bool :=
  c.isAlphanum || c == '+' || c == '-' || c == '.'

/-- Scheme state: consume scheme characters up to the mandatory colon,
returning the lower-cased scheme and the remainder. -/
def schemeLoop (acc : List Char) : List Char → Option (List Char × List Char)
  | [] => none
  | c :: rest =>
      if c == ':' then some (acc.reverse, rest)
      else if schemeChar c then schemeLoop (lowerChar c :: acc) rest
      else none

/-- Scheme start state: the first character must be an ASCII alpha. -/
def schemeSplit : List Char → Option (List Char × List Char)
  | c :: rest => if c.isAlpha then schemeLoop [lowerChar c] rest else none
  | [] => none

/-- The special schemes other than `file`: these require a host. -/
def isSpecialNonFile (sch : List Char) : Bool :=
  sch == "http".toList || sch == "https".toList || sch == "ws".toList ||
  sch == "wss".toList || sch == "ftp".toList

/-- The value of an ASCII hex digit, `none` otherwise. -/
def hexCharVal? (c : Char) : Option Nat :=
  if c.isDigit then some (c.toNat - 48)
  else if 97 ≤ c.toNat && c.toNat ≤ 102 then some (c.toNat - 87)
  else if 65 ≤ c.toNat && c.toNat ≤ 70 then some (c.toNat - 55)
  else none

/-- An ASCII hex digit. -/
def isHexChar (c : Char) : Bool := (hexCharVal? c).isSome

/-- Percent-decoding: each `%` followed by two hex digits becomes the
decoded byte, everything else stays. -/
def pctDecode : List Char → List Char
  | '%' :: a :: b :: rest =>
      match hexCharVal? a, hexCharVal? b with
      | some x, some y => Char.ofNat (16 * x + y) :: pctDecode rest
      | _, _ => '%' :: pctDecode (a :: b :: rest)
  | c :: rest => c :: pctDecode rest
  | [] => []

/-- The forbidden host code points of the URL standard. -/
def forbiddenHostChar (c : Char) : Bool :=
  c.toNat == 0 || c.toNat == 9 || c.toNat == 10 || c.toNat == 13 ||
  c == ' ' || c == '#' || c == '/' || c == ':' || c == '<' || c == '>' ||
  c == '?' || c == '@' || c == '[' || c == '\\' || c == ']' || c == '^' ||
  c == '|'

/-- The forbidden domain code points: forbidden host code points plus C0
controls, `%` and delete. -/
def forbiddenDomainChar (c : Char) : Bool :=
  forbiddenHostChar c || c.toNat < 32 || c == '%' || c.toNat == 127

/-- Hex digits to a natural number. -/
def hexToNat (cs : List Char) : Nat :=
  cs.foldl (fun n c => 16 * n + ((hexCharVal? c).getD 0)) 0

/-- An ASCII octal digit. -/
def isOctChar (c : Char) : Bool := 48 ≤ c.toNat && c.toNat ≤ 55

/-- Octal digits to a natural number. -/
def octToNat (cs : List Char) : Nat :=
  cs.foldl (fun n c => 8 * n + (c.toNat - 48)) 0

/-- The IPv4-number parser: decimal, `0x`-hex (an empty run of hex digits
is the number 0) or `0`-octal; `none` on failure. -/
def ipv4NumberVal? : List Char → Option Nat
  | [] => none
  | '0' :: x :: rest =>
      if x == 'x' || x == 'X' then
        if rest.all isHexChar then some (hexToNat rest) else none
      else if (x :: rest).all isOctChar then some (octToNat (x :: rest))
      else none
  | cs => if cs.all Char.isDigit then some (digitsToNat cs) else none

/-- Dot-separated labels of a host, with one trailing empty label
removed as the URL standard does. -/
def hostParts (cs : List Char) : List (List Char) :=
  let parts := splitCharsOn '.' cs
  if parts.getLast? == some ([] : List Char) then parts.dropLast else parts

/-- The ends-in-a-number check: the last label is all digits or is
IPv4-number syntax, forcing the whole host through the IPv4 parser. -/
def endsInNumber (cs : List Char) : Bool :=
  match (hostParts cs).getLast? with
  | none => false
  | some last =>
      (!last.isEmpty && last.all Char.isDigit) || (ipv4NumberVal? last).isSome

/-- Every label as an IPv4 number, or `none` if one fails. -/
def ipv4Nums : List (List Char) → Option (List Nat)
  | [] => some []
  | p :: ps =>
      match ipv4NumberVal? p, ipv4Nums ps with
      | some v, some vs => some (v :: vs)
      | _, _ => none

/-- The IPv4 host parser: at most four numeric labels, each but the last
at most 255, the last below `256 ^ (5 - count)`. -/
def ipv4HostOk (cs : List Char) : Bool :=
  let parts := hostParts cs
  if 4 < parts.length then false
  else
    match ipv4Nums parts with
    | none => false
    | some ns =>
        (ns.dropLast.all fun v => v ≤ 255) &&
        (match ns.getLast? with
         | none => false
         | some v => v < 256 ^ (5 - ns.length))

/-- One decimal number of an IPv4 suffix inside an IPv6 address: no
leading zero, at most 255. -/
def ipv4InV6Num (cs : List Char) : Option (Nat × List Char) :=
  let ds := cs.takeWhile Char.isDigit
  if ds.isEmpty then none
  else if ds.head? == some '0' && ds.length != 1 then none
  else if 255 < digitsToNat ds then none
  else some (digitsToNat ds, cs.drop ds.length)

/-- The trailing-IPv4 form inside an IPv6 address: exactly four
dot-separated numbers consuming the whole remainder. -/
def ipv4InV6 (cs : List Char) : Bool :=
  match ipv4InV6Num cs with
  | some (_, '.' :: r1) =>
      match ipv4InV6Num r1 with
      | some (_, '.' :: r2) =>
          match ipv4InV6Num r2 with
          | some (_, '.' :: r3) =>
              match ipv4InV6Num r3 with
              | some (_, []) => true
              | _ => false
          | _ => false
      | _ => false
  | _ => false

/-- The loop of the IPv6 parser: at most eight pieces of up to four hex
digits, one `::` compression, an optional trailing IPv4 in the last two
piece positions.  The fuel argument only bounds the recursion; callers
pass the remaining length plus one. -/
def ipv6Rest : Nat → List Char → Nat → Bool → Bool
  | 0, _, _, _ => false
  | _ + 1, [], pieceIndex, compress => compress || pieceIndex == 8
  | fuel + 1, c :: rest, pieceIndex, compress =>
      if pieceIndex == 8 then false
      else if c == ':' then
        if compress then false
        else ipv6Rest fuel rest (pieceIndex + 1) true
      else
        let digits := ((c :: rest).take 4).takeWhile isHexChar
        match (c :: rest).drop digits.length with
        | '.' :: _ =>
            if digits.isEmpty || 6 < pieceIndex then false
            else ipv4InV6 (c :: rest) && (compress || pieceIndex + 2 == 8)
        | ':' :: rest2 =>
            if rest2.isEmpty then false
            else ipv6Rest fuel rest2 (pieceIndex + 1) compress
        | [] => compress || pieceIndex + 1 == 8
        | _ => false

/-- The IPv6 parser (the text between brackets): a leading colon must be
a `::` compression. -/
def ipv6Ok (cs : List Char) : Bool :=
  match cs with
  | ':' :: ':' :: rest => ipv6Rest (rest.length + 1) rest 1 true
  | ':' :: _ => false
  | _ => ipv6Rest (cs.length + 1) cs 0 false

/-- A special-scheme domain: percent-decode, check the forbidden domain
code points, and when the result ends in a number parse it as IPv4. -/
def specialDomainOk (cs : List Char) : Bool :=
  let d := pctDecode cs
  (d.all fun c => !forbiddenDomainChar c) &&
  (!endsInNumber d || ipv4HostOk d)

/-- The host parser: a bracketed host must be valid IPv6; special schemes
need a non-empty valid domain; other schemes accept any host free of
forbidden host code points. -/
def hostOk (special : Bool) (cs : List Char) : Bool :=
  match cs with
  | [] => !special
  | '[' :: rest =>
      if rest.getLast? == some ']' then ipv6Ok rest.dropLast else false
  | _ =>
      if special then specialDomainOk cs
      else cs.all fun c => !forbiddenHostChar c

/-- Split an authority at its last `@` (everything before it is user
information): whether an `@` occurred, and the host-port part. -/
def splitAtLastAt : List Char → Bool × List Char
  | [] => (false, [])
  | c :: rest =>
      let r := splitAtLastAt rest
      if r.1 then r
      else if c == '@' then (true, rest)
      else (false, c :: rest)

/-- Split a host-port part at the first colon outside brackets. -/
def splitHostPort : List Char → Bool → List Char × Option (List Char)
  | [], _ => ([], none)
  | c :: rest, inB =>
      if c == '[' then
        let r := splitHostPort rest true
        (c :: r.1, r.2)
      else if c == ']' then
        let r := splitHostPort rest false
        (c :: r.1, r.2)
      else if c == ':' && !inB then ([], some rest)
      else
        let r := splitHostPort rest inB
        (c :: r.1, r.2)

/-- A port: only digits, value at most 65535 (empty is allowed). -/
def portOk (cs : List Char) : Bool :=
  cs.all Char.isDigit && digitsToNat cs ≤ 65535

/-- The authority and host states on one authority chunk: an `@` followed
by nothing fails, a port implies a non-empty host, and the host must be
valid for the scheme kind. -/
def authorityOk (special : Bool) (chunk : List Char) : Bool :=
  let hp := splitAtLastAt chunk
  if hp.1 && hp.2.isEmpty then false
  else
    match splitHostPort hp.2 false with
    | (host, none) => hostOk special host
    | (host, some p) => !host.isEmpty && portOk p && hostOk special host

/-- A slash or backslash (special schemes treat both alike). -/
def isSlashy (c : Char) : Bool := c == '/' || c == '\\'

/-- A character ending the authority chunk. -/
def authTermChar (special : Bool) (c : Char) : Bool :=
  c == '/' || c == '?' || c == '#' || (special && c == '\\')

/-- A Windows drive letter: an ASCII alpha followed by `:` or `|`. -/
def isWindowsDrive : List Char → Bool
  | [a, b] => a.isAlpha && (b == ':' || b == '|')
  | _ => false

/-- The `file` states after `file:`: only two leading (back)slashes enter
the file-host state, whose chunk may be a Windows drive letter, empty, or
a valid host; anything else is a path and always succeeds. -/
def fileRestOk : List Char → Bool
  | c1 :: c2 :: rest =>
      if isSlashy c1 && isSlashy c2 then
        let chunk := rest.takeWhile fun c => !(isSlashy c || c == '?' || c == '#')
        isWindowsDrive chunk || chunk.isEmpty || hostOk true chunk
      else true
  | _ => true

/-- Whether the remainder begins with `//` (a non-special authority). -/
def startsDoubleSlash (l : List Char) : Bool := decide (l.take 2 = ['/', '/'])

/-- The basic URL parser after preprocessing: scheme, then the
scheme-dependent treatment of the remainder.  Path, query and fragment
parsing never fail and need no model. -/
def urlCore (cs : List Char) : Bool :=
  match schemeSplit cs with
  | none => false
  | some (sch, rest) =>
      if sch == "file".toList then fileRestOk rest
      else if isSpecialNonFile sch then
        authorityOk true
          ((rest.dropWhile isSlashy).takeWhile fun c => !authTermChar true c)
      else if startsDoubleSlash rest then
        authorityOk false
          ((rest.drop 2).takeWhile fun c => !authTermChar false c)
      else true

/-- Model of `new URL(s)` succeeding (what `z.string().url()` checks). -/
def jsUrlParses (s : String) : Bool := urlCore (urlPreprocess s.toList)

/-- A well-formed `mailto:` URI remainder: printable ASCII (RFC 6068
permits only such characters outside percent-encoding) not starting with
`//` (which would denote an authority instead of an address). -/
def wellFormedMailtoRest (r : String) : Bool :=
  (r.toList.all fun c => 32 < c.toNat && c.toNat < 127) &&
  !startsDoubleSlash r.toList

/-- Consume exactly `n` decimal digits. -/
def digitsN (n : Nat) (cs : List Char) : Option (List Char) :=
  if (cs.take n).length = n ∧ (cs.take n).all Char.isDigit then some (cs.drop n)
  else none

/-- Consume one expected character. -/
def expectChar (c : Char) : List Char → Option (List Char)
  | d :: rest => if d = c then some rest else none
  | [] => none

/-- The optional fractional-seconds group `(\.\d+)?` (greedy, matched only
when at least one digit follows the dot). -/
def optFrac : List Char → List Char
  | '.' :: rest =>
      if (rest.takeWhile Char.isDigit).isEmpty then '.' :: rest
      else rest.dropWhile Char.isDigit
  | cs => cs

/-- zod's default `z.string().datetime()` regex
`^\d{4}-\d{2}-\d{2}T\d{2}:\d{2}:\d{2}(\.\d+)?Z$`. -/
def isZodDatetime (s : String) : Bool :=
  (do
    let r ← digitsN 4 s.toList
    let r ← expectChar '-' r
    let r ← digitsN 2 r
    let r ← expectChar '-' r
    let r ← digitsN 2 r
    let r ← expectChar 'T' r
    let r ← digitsN 2 r
    let r ← expectChar ':' r
    let r ← digitsN 2 r
    let r ← expectChar ':' r
    let r ← digitsN 2 r
    let r ← expectChar 'Z' (optFrac r)
    if r.isEmpty then some () else none).isSome

/-! ## Typed profile model (the `z.infer` output types) -/

/-- One hero metric (`ImpactStatSchema`). -/
structure ImpactStat where
  id : String
  value : String
  unit : String
  label : String
  detail : String
  icon : Option String
  deriving DecidableEq, Repr

/-- One `hero.ctaLinks` entry. -/
structure CtaLink where
  label : String
  href : String
  icon : String
  deriving DecidableEq, Repr

/-- `HeroSchema`. -/
structure Hero where
  name : String
  headline : String
  tagline : String
  location : String
  impactStats : List ImpactStat
  ctaLinks : List CtaLink
  deriving DecidableEq, Repr

/-- `HighlightSchema`. -/
structure Highlight where
  title : String
  category : String
  context : String
  description : String
  mediaUrl : Option String
  deriving DecidableEq, Repr

/-- `MetricSchema`. -/
structure Metric where
  value : String
  label : String
  deriving DecidableEq, Repr

/-- A `{ start, end }` period; `none` models JSON `null` ("Present"). -/
structure Period where
  start : String
  «end» : Option String
  deriving DecidableEq, Repr

/-- The `deepDive` payload of an experience entry. -/
structure DeepDive where
  context : String
  technicalHighlights : List String
  leadershipHighlights : Option (List String)
  metrics : List Metric
  deriving DecidableEq, Repr

/-- `ExperienceSchema` (after defaults). -/
structure Experience where
  id : String
  company : String
  role : String
  period : Period
  employmentType : String
  careerLevel : Option String
  isEarlyCareer : Bool
  summary : String
  deepDive : DeepDive
  tags : List String
  deriving DecidableEq, Repr

/-- The optional `source` of a philosophy card. -/
structure PhilosophySource where
  author : String
  work : String
  deriving DecidableEq, Repr

/-- `PhilosophySchema`. -/
structure Philosophy where
  id : String
  title : String
  belief : String
  source : Option PhilosophySource
  deriving DecidableEq, Repr

/-- One skill inside a category (after the `highlight` default). -/
structure Skill where
  name : String
  level : ℚ
  highlight : Bool
  deriving DecidableEq, Repr

/-- `SkillCategorySchema`. -/
structure SkillCategory where
  category : String
  skills : List Skill
  deriving DecidableEq, Repr

/-- `EducationSchema`. -/
structure Education where
  id : String
  degree : String
  institution : String
  focus : String
  type : String
  period : Period
  transferableInsight : Option String
  highlights : Option (List String)
  deriving DecidableEq, Repr

/-- `RootsSchema` (legacy single-entry education). -/
structure Roots where
  degree : String
  institution : String
  focus : String
  transferableInsight : String
  deriving DecidableEq, Repr

/-- `VolunteeringSchema`. -/
structure Volunteering where
  id : String
  organization : String
  role : String
  period : Period
  description : String
  impact : Option String
  highlights : Option (List String)
  tags : Option (List String)
  deriving DecidableEq, Repr

/-- `GasTownRoleSchema`. -/
structure GasTownRole where
  name : String
  emoji : String
  description : String
  deriving DecidableEq, Repr

/-- `GasTownSchema`. -/
structure GasTown where
  name : String
  tagline : String
  description : String
  url : String
  roles : List GasTownRole
  deriving DecidableEq, Repr

/-- `PolecatSchema`. -/
structure Polecat where
  name : String
  beads : ℚ
  focus : List String
  deriving DecidableEq, Repr

/-- `TimelineMilestoneSchema`. -/
structure TimelineMilestone where
  time : String
  date : String
  title : String
  description : String
  highlight : Option Bool
  beadsMerged : Option ℚ
  deriving DecidableEq, Repr

/-- `BuildStatsSchema`. -/
structure BuildStats where
  beads : ℚ
  agents : ℚ
  commits : ℚ
  duration : String
  deriving DecidableEq, Repr

/-- One legacy `meta.agents` entry. -/
structure AgentCredit where
  name : String
  contribution : String
  deriving DecidableEq, Repr

/-- `AgenticMetaSchema`. -/
structure AgenticMeta where
  buildTimestamp : String
  bundleSize : String
  sourceUrl : String
  lighthouseScore : Option ℚ
  agents : Option (List AgentCredit)
  gasTown : Option GasTown
  polecats : Option (List Polecat)
  timeline : Option (List TimelineMilestone)
  stats : Option BuildStats
  deriving DecidableEq, Repr

/-- `ProfileSchema`'s output type. -/
structure Profile where
  hero : Hero
  highlight : Highlight
  experience : List Experience
  philosophy : List Philosophy
  skills : List SkillCategory
  roots : Option Roots
  education : Option (List Education)
  volunteering : Option (List Volunteering)
  meta : AgenticMeta
  deriving DecidableEq, Repr

/-! ## Schema parsers (one per zod schema in `profile.schema.ts`) -/

/-- The `EmploymentTypeEnum` literal set. -/
def employmentTypes : List String :=
  ["full-time", "part-time", "contract", "internship", "freelance", "apprenticeship"]

/-- The `CareerLevelEnum` literal set. -/
def careerLevels : List String :=
  ["entry", "junior", "mid", "senior", "lead", "principal", "executive"]

/-- The `EducationTypeEnum` literal set. -/
def educationTypes : List String :=
  ["bachelor", "master", "doctorate", "associate", "certificate", "bootcamp",
   "self-taught", "other"]

/-- `ImpactStatSchema`. -/
def parseImpactStat : Json → ZRes ImpactStat
  | .obj o =>
      (zip2 (reqField o "id" parseStr)
      (zip2 (reqField o "value" parseStr)
      (zip2 (reqField o "unit" parseStr)
      (zip2 (reqField o "label" parseStr)
      (zip2 (reqField o "detail" parseStr)
            (optField o "icon" parseStr)))))).map
        fun (a, b, c, d, e, f) =>
          { id := a, value := b, unit := c, label := d, detail := e, icon := f }
  | _ => .error [⟨[], "Expected object"⟩]

/-- The inline `ctaLinks` element schema (`href` is `z.string().url()`). -/
def parseCtaLink : Json → ZRes CtaLink
  | .obj o =>
      (zip2 (reqField o "label" parseStr)
      (zip2 (reqField o "href" (parseStrCheck jsUrlParses "Invalid url"))
            (reqField o "icon" parseStr))).map
        fun (a, b, c) => { label := a, href := b, icon := c }
  | _ => .error [⟨[], "Expected object"⟩]

/-- `HeroSchema` (`impactStats` carries `.min(3).max(4)`). -/
def parseHero : Json → ZRes Hero
  | .obj o =>
      (zip2 (reqField o "name" parseStr)
      (zip2 (reqField o "headline" parseStr)
      (zip2 (reqField o "tagline" parseStr)
      (zip2 (reqField o "location" parseStr)
      (zip2 (reqField o "impactStats" (parseArrSized (some 3) (some 4) parseImpactStat))
            (reqField o "ctaLinks" (parseArr parseCtaLink))))))).map
        fun (a, b, c, d, e, f) =>
          { name := a, headline := b, tagline := c, location := d,
            impactStats := e, ctaLinks := f }
  | _ => .error [⟨[], "Expected object"⟩]

/-- `HighlightSchema`. -/
def parseHighlight : Json → ZRes Highlight
  | .obj o =>
      (zip2 (reqField o "title" parseStr)
      (zip2 (reqField o "category" parseStr)
      (zip2 (reqField o "context" parseStr)
      (zip2 (reqField o "description" parseStr)
            (optField o "mediaUrl" (parseStrCheck jsUrlParses "Invalid url")))))).map
        fun (a, b, c, d, e) =>
          { title := a, category := b, context := c, description := d, mediaUrl := e }
  | _ => .error [⟨[], "Expected object"⟩]

/-- `MetricSchema`. -/
def parseMetric : Json → ZRes Metric
  | .obj o =>
      (zip2 (reqField o "value" parseStr) (reqField o "label" parseStr)).map
        fun (a, b) => { value := a, label := b }
  | _ => .error [⟨[], "Expected object"⟩]

/-- The inline `period` schema (`end` is `.nullable()`). -/
def parsePeriod : Json → ZRes Period
  | .obj o =>
      (zip2 (reqField o "start" parseStr)
            (reqField o "end" (parseNullable parseStr))).map
        fun (a, b) => { start := a, «end» := b }
  | _ => .error [⟨[], "Expected object"⟩]

/-- The inline `deepDive` schema. -/
def parseDeepDive : Json → ZRes DeepDive
  | .obj o =>
      (zip2 (reqField o "context" parseStr)
      (zip2 (reqField o "technicalHighlights" (parseArr parseStr))
      (zip2 (optField o "leadershipHighlights" (parseArr parseStr))
            (reqField o "metrics" (parseArr parseMetric))))).map
        fun (a, b, c, d) =>
          { context := a, technicalHighlights := b, leadershipHighlights := c,
            metrics := d }
  | _ => .error [⟨[], "Expected object"⟩]

/-- `ExperienceSchema`: `employmentType` defaults to `"full-time"`,
`isEarlyCareer` defaults to `false`. -/
def parseExperience : Json → ZRes Experience
  | .obj o =>
      (zip2 (reqField o "id" parseStr)
      (zip2 (reqField o "company" parseStr)
      (zip2 (reqField o "role" parseStr)
      (zip2 (reqField o "period" parsePeriod)
      (zip2 (defField o "employmentType" "full-time" (parseEnum employmentTypes))
      (zip2 (optField o "careerLevel" (parseEnum careerLevels))
      (zip2 (defField o "isEarlyCareer" false parseBool)
      (zip2 (reqField o "summary" parseStr)
      (zip2 (reqField o "deepDive" parseDeepDive)
            (reqField o "tags" (parseArr parseStr))))))))))).map
        fun (a, b, c, d, e, f, g, h, i, j) =>
          { id := a, company := b, role := c, period := d, employmentType := e,
            careerLevel := f, isEarlyCareer := g, summary := h, deepDive := i,
            tags := j }
  | _ => .error [⟨[], "Expected object"⟩]

/-- The inline `source` schema of a philosophy card. -/
def parsePhilosophySource : Json → ZRes PhilosophySource
  | .obj o =>
      (zip2 (reqField o "author" parseStr) (reqField o "work" parseStr)).map
        fun (a, b) => { author := a, work := b }
  | _ => .error [⟨[], "Expected object"⟩]

/-- `PhilosophySchema`. -/
def parsePhilosophy : Json → ZRes Philosophy
  | .obj o =>
      (zip2 (reqField o "id" parseStr)
      (zip2 (reqField o "title" parseStr)
      (zip2 (reqField o "belief" parseStr)
            (optField o "source" parsePhilosophySource)))).map
        fun (a, b, c, d) => { id := a, title := b, belief := c, source := d }
  | _ => .error [⟨[], "Expected object"⟩]

/-- The inline skill schema: `level` is `z.number().min(1).max(5)` (note:
no `.int()` in the source) and `highlight` defaults to `false`. -/
def parseSkill : Json → ZRes Skill
  | .obj o =>
      (zip2 (reqField o "name" parseStr)
      (zip2 (reqField o "level" (parseNumRange 1 5))
            (defField o "highlight" false parseBool))).map
        fun (a, b, c) => { name := a, level := b, highlight := c }
  | _ => .error [⟨[], "Expected object"⟩]

/-- `SkillCategorySchema`. -/
def parseSkillCategory : Json → ZRes SkillCategory
  | .obj o =>
      (zip2 (reqField o "category" parseStr)
            (reqField o "skills" (parseArr parseSkill))).map
        fun (a, b) => { category := a, skills := b }
  | _ => .error [⟨[], "Expected object"⟩]

/-- `EducationSchema`. -/
def parseEducation : Json → ZRes Education
  | .obj o =>
      (zip2 (reqField o "id" parseStr)
      (zip2 (reqField o "degree" parseStr)
      (zip2 (reqField o "institution" parseStr)
      (zip2 (reqField o "focus" parseStr)
      (zip2 (reqField o "type" (parseEnum educationTypes))
      (zip2 (reqField o "period" parsePeriod)
      (zip2 (optField o "transferableInsight" parseStr)
            (optField o "highlights" (parseArr parseStr))))))))).map
        fun (a, b, c, d, e, f, g, h) =>
          { id := a, degree := b, institution := c, focus := d, type := e,
            period := f, transferableInsight := g, highlights := h }
  | _ => .error [⟨[], "Expected object"⟩]

/-- `RootsSchema`. -/
def parseRoots : Json → ZRes Roots
  | .obj o =>
      (zip2 (reqField o "degree" parseStr)
      (zip2 (reqField o "institution" parseStr)
      (zip2 (reqField o "focus" parseStr)
            (reqField o "transferableInsight" parseStr)))).map
        fun (a, b, c, d) =>
          { degree := a, institution := b, focus := c, transferableInsight := d }
  | _ => .error [⟨[], "Expected object"⟩]

/-- `VolunteeringSchema`. -/
def parseVolunteering : Json → ZRes Volunteering
  | .obj o =>
      (zip2 (reqField o "id" parseStr)
      (zip2 (reqField o "organization" parseStr)
      (zip2 (reqField o "role" parseStr)
      (zip2 (reqField o "period" parsePeriod)
      (zip2 (reqField o "description" parseStr)
      (zip2 (optField o "impact" parseStr)
      (zip2 (optField o "highlights" (parseArr parseStr))
            (optField o "tags" (parseArr parseStr))))))))).map
        fun (a, b, c, d, e, f, g, h) =>
          { id := a, organization := b, role := c, period := d, description := e,
            impact := f, highlights := g, tags := h }
  | _ => .error [⟨[], "Expected object"⟩]

/-- `GasTownRoleSchema`. -/
def parseGasTownRole : Json → ZRes GasTownRole
  | .obj o =>
      (zip2 (reqField o "name" parseStr)
      (zip2 (reqField o "emoji" parseStr)
            (reqField o "description" parseStr))).map
        fun (a, b, c) => { name := a, emoji := b, description := c }
  | _ => .error [⟨[], "Expected object"⟩]

/-- `GasTownSchema`. -/
def parseGasTown : Json → ZRes GasTown
  | .obj o =>
      (zip2 (reqField o "name" parseStr)
      (zip2 (reqField o "tagline" parseStr)
      (zip2 (reqField o "description" parseStr)
      (zip2 (reqField o "url" (parseStrCheck jsUrlParses "Invalid url"))
            (reqField o "roles" (parseArr parseGasTownRole)))))).map
        fun (a, b, c, d, e) =>
          { name := a, tagline := b, description := c, url := d, roles := e }
  | _ => .error [⟨[], "Expected object"⟩]

/-- `PolecatSchema`. -/
def parsePolecat : Json → ZRes Polecat
  | .obj o =>
      (zip2 (reqField o "name" parseStr)
      (zip2 (reqField o "beads" parseNum)
            (reqField o "focus" (parseArr parseStr)))).map
        fun (a, b, c) => { name := a, beads := b, focus := c }
  | _ => .error [⟨[], "Expected object"⟩]

/-- `TimelineMilestoneSchema`. -/
def parseTimelineMilestone : Json → ZRes TimelineMilestone
  | .obj o =>
      (zip2 (reqField o "time" parseStr)
      (zip2 (reqField o "date" parseStr)
      (zip2 (reqField o "title" parseStr)
      (zip2 (reqField o "description" parseStr)
      (zip2 (optField o "highlight" parseBool)
            (optField o "beadsMerged" parseNum)))))).map
        fun (a, b, c, d, e, f) =>
          { time := a, date := b, title := c, description := d, highlight := e,
            beadsMerged := f }
  | _ => .error [⟨[], "Expected object"⟩]

/-- `BuildStatsSchema`. -/
def parseBuildStats : Json → ZRes BuildStats
  | .obj o =>
      (zip2 (reqField o "beads" parseNum)
      (zip2 (reqField o "agents" parseNum)
      (zip2 (reqField o "commits" parseNum)
            (reqField o "duration" parseStr)))).map
        fun (a, b, c, d) => { beads := a, agents := b, commits := c, duration := d }
  | _ => .error [⟨[], "Expected object"⟩]

/-- One legacy `meta.agents` element. -/
def parseAgentCredit : Json → ZRes AgentCredit
  | .obj o =>
      (zip2 (reqField o "name" parseStr) (reqField o "contribution" parseStr)).map
        fun (a, b) => { name := a, contribution := b }
  | _ => .error [⟨[], "Expected object"⟩]

/-- `AgenticMetaSchema`: `buildTimestamp` is `z.string().datetime()`,
`sourceUrl` is `z.string().url()`, the Gas Town fields are optional. -/
def parseAgenticMeta : Json → ZRes AgenticMeta
  | .obj o =>
      (zip2 (reqField o "buildTimestamp" (parseStrCheck isZodDatetime "Invalid datetime"))
      (zip2 (reqField o "bundleSize" parseStr)
      (zip2 (reqField o "sourceUrl" (parseStrCheck jsUrlParses "Invalid url"))
      (zip2 (optField o "lighthouseScore" parseNum)
      (zip2 (optField o "agents" (parseArr parseAgentCredit))
      (zip2 (optField o "gasTown" parseGasTown)
      (zip2 (optField o "polecats" (parseArr parsePolecat))
      (zip2 (optField o "timeline" (parseArr parseTimelineMilestone))
            (optField o "stats" parseBuildStats))))))))).map
        fun (a, b, c, d, e, f, g, h, i) =>
          { buildTimestamp := a, bundleSize := b, sourceUrl := c,
            lighthouseScore := d, agents := e, gasTown := f, polecats := g,
            timeline := h, stats := i }
  | _ => .error [⟨[], "Expected object"⟩]

/-- The base `z.object` of `ProfileSchema`, before the `.refine`
(`philosophy` carries `.min(2).max(4)`). -/
def parseProfileBase : Json → ZRes Profile
  | .obj o =>
      (zip2 (reqField o "hero" parseHero)
      (zip2 (reqField o "highlight" parseHighlight)
      (zip2 (reqField o "experience" (parseArr parseExperience))
      (zip2 (reqField o "philosophy" (parseArrSized (some 2) (some 4) parsePhilosophy))
      (zip2 (reqField o "skills" (parseArr parseSkillCategory))
      (zip2 (optField o "roots" parseRoots)
      (zip2 (optField o "education" (parseArr parseEducation))
      (zip2 (optField o "volunteering" (parseArr parseVolunteering))
            (reqField o "meta" parseAgenticMeta))))))))).map
        fun (a, b, c, d, e, f, g, h, i) =>
          { hero := a, highlight := b, experience := c, philosophy := d,
            skills := e, roots := f, education := g, volunteering := h,
            meta := i }
  | _ => .error [⟨[], "Expected object"⟩]

/-- The verbatim message of the `.refine` on `ProfileSchema`. -/
def rootsEduMsg : String := "Either roots (legacy) or education array must be provided"

/-- The document-level issue emitted by the `.refine` (zod reports custom
refinement failures at the root path). -/
def rootsEduIssue : Issue := ⟨[], rootsEduMsg⟩

/-- The `.refine` predicate:
`data.roots !== undefined || (data.education !== undefined && data.education.length > 0)`. -/
def profileInvariant (p : Profile) : Bool :=
  p.roots.isSome ||
    (match p.education with
     | some es => decide (0 < es.length)
     | none => false)

/-- `ProfileSchema.safeParse`: the base object parse, then the `.refine`,
which zod evaluates only when the base parse succeeded. -/
def parseProfile (j : Json) : ZRes Profile :=
  match parseProfileBase j with
  | .error e => .error e
  | .ok p => if profileInvariant p then .ok p else .error [rootsEduIssue]

/-! ## Serialization back to JSON (`JSON.stringify` of the typed value).
Absent optionals produce no key; the nullable `end` serializes as `null`. -/

/-- Emit a key only when the optional value is present. -/
def optEntry (k : String) : Option Json → List (String × Json)
  | some j => [(k, j)]
  | none => []

/-- Serialize an `ImpactStat`. -/
def impactStatToJson (v : ImpactStat) : Json :=
  .obj ([("id", .str v.id), ("value", .str v.value), ("unit", .str v.unit),
         ("label", .str v.label), ("detail", .str v.detail)] ++
        optEntry "icon" (v.icon.map .str))

/-- Serialize a `CtaLink`. -/
def ctaLinkToJson (v : CtaLink) : Json :=
  .obj [("label", .str v.label), ("href", .str v.href), ("icon", .str v.icon)]

/-- Serialize a `Hero`. -/
def heroToJson (v : Hero) : Json :=
  .obj [("name", .str v.name), ("headline", .str v.headline),
        ("tagline", .str v.tagline), ("location", .str v.location),
        ("impactStats", .arr (v.impactStats.map impactStatToJson)),
        ("ctaLinks", .arr (v.ctaLinks.map ctaLinkToJson))]

/-- Serialize a `Highlight`. -/
def highlightToJson (v : Highlight) : Json :=
  .obj ([("title", .str v.title), ("category", .str v.category),
         ("context", .str v.context), ("description", .str v.description)] ++
        optEntry "mediaUrl" (v.mediaUrl.map .str))

/-- Serialize a `Metric`. -/
def metricToJson (v : Metric) : Json :=
  .obj [("value", .str v.value), ("label", .str v.label)]

/-- Serialize a `Period` (`end := none` becomes JSON `null`). -/
def periodToJson (v : Period) : Json :=
  .obj [("start", .str v.start),
        ("end", match v.«end» with | some e => .str e | none => .null)]

/-- Serialize a `DeepDive`. -/
def deepDiveToJson (v : DeepDive) : Json :=
  .obj ([("context", .str v.context),
         ("technicalHighlights", .arr (v.technicalHighlights.map .str))] ++
        optEntry "leadershipHighlights"
          (v.leadershipHighlights.map fun l => .arr (l.map .str)) ++
        [("metrics", .arr (v.metrics.map metricToJson))])

/-- Serialize an `Experience`. -/
def experienceToJson (v : Experience) : Json :=
  .obj ([("id", .str v.id), ("company", .str v.company), ("role", .str v.role),
         ("period", periodToJson v.period),
         ("employmentType", .str v.employmentType)] ++
        optEntry "careerLevel" (v.careerLevel.map .str) ++
        [("isEarlyCareer", .bool v.isEarlyCareer), ("summary", .str v.summary),
         ("deepDive", deepDiveToJson v.deepDive),
         ("tags", .arr (v.tags.map .str))])

/-- Serialize a `PhilosophySource`. -/
def philosophySourceToJson (v : PhilosophySource) : Json :=
  .obj [("author", .str v.author), ("work", .str v.work)]

/-- Serialize a `Philosophy`. -/
def philosophyToJson (v : Philosophy) : Json :=
  .obj ([("id", .str v.id), ("title", .str v.title), ("belief", .str v.belief)] ++
        optEntry "source" (v.source.map philosophySourceToJson))

/-- Serialize a `Skill`. -/
def skillToJson (v : Skill) : Json :=
  .obj [("name", .str v.name), ("level", .num v.level),
        ("highlight", .bool v.highlight)]

/-- Serialize a `SkillCategory`. -/
def skillCategoryToJson (v : SkillCategory) : Json :=
  .obj [("category", .str v.category), ("skills", .arr (v.skills.map skillToJson))]

/-- Serialize an `Education`. -/
def educationToJson (v : Education) : Json :=
  .obj ([("id", .str v.id), ("degree", .str v.degree),
         ("institution", .str v.institution), ("focus", .str v.focus),
         ("type", .str v.type), ("period", periodToJson v.period)] ++
        optEntry "transferableInsight" (v.transferableInsight.map .str) ++
        optEntry "highlights" (v.highlights.map fun l => .arr (l.map .str)))

/-- Serialize a `Roots`. -/
def rootsToJson (v : Roots) : Json :=
  .obj [("degree", .str v.degree), ("institution", .str v.institution),
        ("focus", .str v.focus), ("transferableInsight", .str v.transferableInsight)]

/-- Serialize a `Volunteering`. -/
def volunteeringToJson (v : Volunteering) : Json :=
  .obj ([("id", .str v.id), ("organization", .str v.organization),
         ("role", .str v.role), ("period", periodToJson v.period),
         ("description", .str v.description)] ++
        optEntry "impact" (v.impact.map .str) ++
        optEntry "highlights" (v.highlights.map fun l => .arr (l.map .str)) ++
        optEntry "tags" (v.tags.map fun l => .arr (l.map .str)))

/-- Serialize a `GasTownRole`. -/
def gasTownRoleToJson (v : GasTownRole) : Json :=
  .obj [("name", .str v.name), ("emoji", .str v.emoji),
        ("description", .str v.description)]

/-- Serialize a `GasTown`. -/
def gasTownToJson (v : GasTown) : Json :=
  .obj [("name", .str v.name), ("tagline", .str v.tagline),
        ("description", .str v.description), ("url", .str v.url),
        ("roles", .arr (v.roles.map gasTownRoleToJson))]

/-- Serialize a `Polecat`. -/
def polecatToJson (v : Polecat) : Json :=
  .obj [("name", .str v.name), ("beads", .num v.beads),
        ("focus", .arr (v.focus.map .str))]

/-- Serialize a `TimelineMilestone`. -/
def timelineMilestoneToJson (v : TimelineMilestone) : Json :=
  .obj ([("time", .str v.time), ("date", .str v.date), ("title", .str v.title),
         ("description", .str v.description)] ++
        optEntry "highlight" (v.highlight.map .bool) ++
        optEntry "beadsMerged" (v.beadsMerged.map .num))

/-- Serialize a `BuildStats`. -/
def buildStatsToJson (v : BuildStats) : Json :=
  .obj [("beads", .num v.beads), ("agents", .num v.agents),
        ("commits", .num v.commits), ("duration", .str v.duration)]

/-- Serialize an `AgentCredit`. -/
def agentCreditToJson (v : AgentCredit) : Json :=
  .obj [("name", .str v.name), ("contribution", .str v.contribution)]

/-- Serialize an `AgenticMeta`. -/
def agenticMetaToJson (v : AgenticMeta) : Json :=
  .obj ([("buildTimestamp", .str v.buildTimestamp),
         ("bundleSize", .str v.bundleSize), ("sourceUrl", .str v.sourceUrl)] ++
        optEntry "lighthouseScore" (v.lighthouseScore.map .num) ++
        optEntry "agents" (v.agents.map fun l => .arr (l.map agentCreditToJson)) ++
        optEntry "gasTown" (v.gasTown.map gasTownToJson) ++
        optEntry "polecats" (v.polecats.map fun l => .arr (l.map polecatToJson)) ++
        optEntry "timeline"
          (v.timeline.map fun l => .arr (l.map timelineMilestoneToJson)) ++
        optEntry "stats" (v.stats.map buildStatsToJson))

/-- Serialize a whole `Profile` back to JSON. -/
def profileToJson (v : Profile) : Json :=
  .obj ([("hero", heroToJson v.hero), ("highlight", highlightToJson v.highlight),
         ("experience", .arr (v.experience.map experienceToJson)),
         ("philosophy", .arr (v.philosophy.map philosophyToJson)),
         ("skills", .arr (v.skills.map skillCategoryToJson))] ++
        optEntry "roots" (v.roots.map rootsToJson) ++
        optEntry "education" (v.education.map fun l => .arr (l.map educationToJson)) ++
        optEntry "volunteering"
          (v.volunteering.map fun l => .arr (l.map volunteeringToJson)) ++
        [("meta", agenticMetaToJson v.meta)])

/-! ## The period formatters

`TimelineItem.tsx` (experience timeline) and the education card component
each define their own `formatPeriod`.  Both need a model of JavaScript's
`parseInt`, `new Date(year, monthIndex)` and
`toLocaleDateString('en-US', ...)`. -/

/-- JS `s.split('-')` as a list of strings (JS `String.prototype.split`
with the one-character separator `'-'`). -/
def jsSplitDash (s : String) : List String :=
  (splitCharsOn '-' s.toList).map String.mk

/-- JS `parseInt(s)` in base 10: skip whitespace, optional sign, leading
digits; `none` models `NaN`. -/
def jsParseInt (s : String) : Option Int :=
  let cs := s.toList.dropWhile fun c => c == ' ' || c == '\t' || c == '\n' || c == '\r'
  let signed : Int × List Char :=
    match cs with
    | '-' :: r => (-1, r)
    | '+' :: r => (1, r)
    | r => (1, r)
  let ds := signed.2.takeWhile Char.isDigit
  if ds.isEmpty then none else some (signed.1 * (digitsToNat ds : Int))

/-- Result of JS `new Date(year, monthIndex)`: the calendar year and the
normalized month index (0–11). -/
structure JsYearMonth where
  year : Int
  month : Nat
  deriving DecidableEq, Repr

/-- JS `new Date(y, mIdx)`: years 0–99 map to 1900+y, and the month index
overflows into the year. -/
def jsMakeYearMonth (y mIdx : Int) : JsYearMonth :=
  let y' : Int := if 0 ≤ y ∧ y ≤ 99 then y + 1900 else y
  { year := y' + Int.fdiv mIdx 12, month := (Int.emod mIdx 12).toNat }

/-- `en-US` short month names, as produced by
`toLocaleDateString('en-US', { month: 'short' })`. -/
def monthShortNames : List String :=
  ["Jan", "Feb", "Mar", "Apr", "May", "Jun", "Jul", "Aug", "Sep", "Oct",
   "Nov", "Dec"]

/-- The `formatDate` closure of `formatPeriod` in `TimelineItem.tsx`:
`split('-')`, `parseInt` on both parts (a bare year yields
`parseInt(undefined) = NaN`), `new Date(year, month - 1)`, then
`toLocaleDateString('en-US', { month: 'short', year: 'numeric' })` — an
invalid date prints as `"Invalid Date"`. -/
def formatDateTimeline (dateStr : String) : String :=
  let parts := jsSplitDash dateStr
  let y := jsParseInt (parts.headD "")
  let m := match parts[1]? with
    | some ms => jsParseInt ms
    | none => none
  match y, m with
  | some yv, some mv =>
      let d := jsMakeYearMonth yv (mv - 1)
      monthShortNames.getD d.month "" ++ " " ++ toString d.year
  | _, _ => "Invalid Date"

/-- `formatPeriod` of `TimelineItem.tsx`:
`` `${formatDate(start)} — ${end ? formatDate(end) : 'Present'}` ``
(a JS falsy `end`, i.e. `null` or the empty string, renders `Present`). -/
def formatPeriodTimeline (start : String) (stop : Option String) : String :=
  formatDateTimeline start ++ " — " ++
    (match stop with
     | some e => if e = "" then "Present" else formatDateTimeline e
     | none => "Present")

/-- The `formatDate` closure of `formatPeriod` in the education card
(`src/unnamed/part_001`): a string without `-` is returned unchanged ("just
year"), otherwise it is split and rendered with
`toLocaleDateString('en-US', { year: 'numeric' })` — the year only. -/
def formatDateEducation (dateStr : String) : String :=
  if ¬ dateStr.toList.contains '-' then dateStr
  else
    let parts := jsSplitDash dateStr
    let y := jsParseInt (parts.headD "")
    let m := match parts[1]? with
      | some ms => jsParseInt ms
      | none => none
    match y, m with
    | some yv, some mv => toString (jsMakeYearMonth yv (mv - 1)).year
    | _, _ => "Invalid Date"

/-- `formatPeriod` of the education card. -/
def formatPeriodEducation (start : String) (stop : Option String) : String :=
  formatDateEducation start ++ " — " ++
    (match stop with
     | some e => if e = "" then "Present" else formatDateEducation e
     | none => "Present")

/-! ## The impact-stat count-up parser (`SkillsChart.tsx`)

`parseNumericValue` applies the regex `^([€$£]?)(\d+(?:\.\d+)?)(.*)/` to the
display string; on failure it returns `{ prefix: '', numeric: 0,
suffix: value }`, and `CountUp` renders `value` verbatim (and never
animates) whenever `numeric === 0`. -/

/-- The three regex groups of `parseNumericValue`; `pre` is the source's
`prefix` field. -/
structure NumericParts where
  pre : String
  numeric : ℚ
  suffix : String
  deriving DecidableEq, Repr

/-- JS line terminators, which `.` does not match. -/
def isJsLineTerm (c : Char) : Bool :=
  c == '\n' || c == '\r' || c.toNat == 0x2028 || c.toNat == 0x2029

/-- The currency glyphs of the regex class `[€$£]`. -/
def currencyGlyphs : List Char := ['€', '$', '£']

/-- The rational read from `\d+(\.\d+)?` digits (what `parseFloat` reads;
the documents' values are exactly representable). -/
def ratOfDigits (intPart fracPart : List Char) : ℚ :=
  mkRat (digitsToNat intPart * 10 ^ fracPart.length + digitsToNat fracPart)
    (10 ^ fracPart.length)

/-- Match `(\d+(?:\.\d+)?)(.*)` at the given position; `pre` is the already
matched group 1. -/
def matchNumberFrom (pre rest : List Char) : Option NumericParts :=
  let intDigits := rest.takeWhile Char.isDigit
  if intDigits.isEmpty then none
  else
    let afterInt := rest.drop intDigits.length
    let fracAndRest : List Char × List Char :=
      match afterInt with
      | '.' :: tl =>
          let fd := tl.takeWhile Char.isDigit
          if fd.isEmpty then ([], afterInt) else (fd, tl.drop fd.length)
      | _ => ([], afterInt)
    some { pre := String.mk pre,
           numeric := ratOfDigits intDigits fracAndRest.1,
           suffix := String.mk (fracAndRest.2.takeWhile fun c => ¬ isJsLineTerm c) }

/-- `parseNumericValue` from `SkillsChart.tsx`: try the optional currency
glyph first, backtrack to the empty glyph (the regex group is `[€$£]?`),
and fall back to `{ prefix: '', numeric: 0, suffix: value }`. -/
def parseNumericValue (value : String) : NumericParts :=
  let attempt : Option NumericParts :=
    match value.toList with
    | [] => none
    | c :: rest =>
        if currencyGlyphs.contains c then
          match matchNumberFrom [c] rest with
          | some r => some r
          | none => matchNumberFrom [] (c :: rest)
        else matchNumberFrom [] (c :: rest)
  match attempt with
  | some r => r
  | none => { pre := "", numeric := 0, suffix := value }

/-- `CountUp`'s display value, with the already formatted running counter
abstracted as `countStr`: `numeric === 0 ? value : prefix+count+suffix`. -/
def countUpDisplay (value countStr : String) : String :=
  if (parseNumericValue value).numeric = 0 then value
  else (parseNumericValue value).pre ++ countStr ++ (parseNumericValue value).suffix

/-- Whether `CountUp` starts the animation loop: skipped when the user
prefers reduced motion or when `numeric === 0`. -/
def countUpAnimates (value : String) (prefersReducedMotion : Bool) : Bool :=
  !prefersReducedMotion && !((parseNumericValue value).numeric == 0)

/-! ## Concrete sample documents (used to instantiate the theorems) -/

/-- One sample impact stat (icon absent). -/
def sampleStat (n : String) : Json :=
  .obj [("id", .str n), ("value", .str "270+"), ("unit", .str "h"),
        ("label", .str "L"), ("detail", .str "D")]

/-- The sample hero fields other than `name`. -/
def heroRest : List (String × Json) :=
  [("headline", .str "EM"), ("tagline", .str "T"), ("location", .str "FI"),
   ("impactStats", .arr [sampleStat "s1", sampleStat "s2", sampleStat "s3"]),
   ("ctaLinks", .arr [.obj [("label", .str "Email"),
                            ("href", .str "mailto:lauri@example.com"),
                            ("icon", .str "mail")]])]

/-- A fully valid hero object. -/
def sampleHero : Json := .obj (("name", .str "Lauri") :: heroRest)

/-- A hero object missing the required `name`. -/
def heroNoName : Json := .obj heroRest

/-- A valid highlight object. -/
def sampleHighlight : Json :=
  .obj [("title", .str "Award"), ("category", .str "Cat"),
        ("context", .str "Ctx"), ("description", .str "Desc")]

/-- The fields of a valid experience entry with `employmentType`,
`careerLevel` and `isEarlyCareer` absent. -/
def sampleExperienceFields : List (String × Json) :=
  [("id", .str "e1"), ("company", .str "Acme"), ("role", .str "Dev"),
   ("period", .obj [("start", .str "2022-03"), ("end", .null)]),
   ("summary", .str "S"),
   ("deepDive", .obj [("context", .str "C"),
                      ("technicalHighlights", .arr [.str "th"]),
                      ("metrics", .arr [.obj [("value", .str "1"),
                                              ("label", .str "m")]])]),
   ("tags", .arr [.str "ts"])]

/-- A valid experience entry with the optional fields absent. -/
def sampleExperienceJson : Json := .obj sampleExperienceFields

/-- A valid philosophy card (no source). -/
def samplePhilosophyJson (n : String) : Json :=
  .obj [("id", .str n), ("title", .str "T"), ("belief", .str "B")]

/-- The fields of one skill (with `highlight` absent) at the given level. -/
def sampleSkillFields (q : ℚ) : List (String × Json) :=
  [("name", .str "TS"), ("level", .num q)]

/-- The fields of a one-skill category. -/
def sampleSkillCatFields (q : ℚ) : List (String × Json) :=
  [("category", .str "Technical"), ("skills", .arr [.obj (sampleSkillFields q)])]

/-- A one-category skills array whose single skill (with `highlight`
absent) has the given `level`. -/
def skillsWithLevel (q : ℚ) : Json :=
  .arr [.obj (sampleSkillCatFields q)]

/-- A valid education entry. -/
def sampleEducationJson : Json :=
  .obj [("id", .str "ed1"), ("degree", .str "MSc"), ("institution", .str "UH"),
        ("focus", .str "Physics"), ("type", .str "master"),
        ("period", .obj [("start", .str "2016"), ("end", .null)])]

/-- A valid legacy roots object. -/
def sampleRootsJson : Json :=
  .obj [("degree", .str "MSc"), ("institution", .str "UH"),
        ("focus", .str "Physics"), ("transferableInsight", .str "TI")]

/-- A valid meta object (legacy and Gas Town fields absent). -/
def sampleMetaJson : Json :=
  .obj [("buildTimestamp", .str "2026-01-01T00:00:00Z"),
        ("bundleSize", .str "90KB"),
        ("sourceUrl", .str "https://github.com/x/y")]

/-- The top-level fields of a document built from the given hero, skills
and roots/education fields, all other sections being the valid samples. -/
def docFields (heroJ skillsJ : Json) (eduRoots : List (String × Json)) :
    List (String × Json) :=
  [("hero", heroJ), ("highlight", sampleHighlight),
   ("experience", .arr [sampleExperienceJson]),
   ("philosophy", .arr [samplePhilosophyJson "p1", samplePhilosophyJson "p2"]),
   ("skills", skillsJ)] ++ eduRoots ++ [("meta", sampleMetaJson)]

/-- A document built from the given hero, skills and roots/education
fields, all other sections being the valid samples. -/
def docOf (heroJ skillsJ : Json) (eduRoots : List (String × Json)) : Json :=
  .obj (docFields heroJ skillsJ eduRoots)

/-- The hero fields with a custom `impactStats` array. -/
def heroFieldsWith (stats : List Json) : List (String × Json) :=
  [("name", .str "Lauri"), ("headline", .str "EM"), ("tagline", .str "T"),
   ("location", .str "FI"), ("impactStats", .arr stats),
   ("ctaLinks", .arr [.obj [("label", .str "Email"),
                            ("href", .str "mailto:lauri@example.com"),
                            ("icon", .str "mail")]])]

/-- A fully valid document carrying both `roots` and a non-empty
`education`. -/
def sampleDoc : Json :=
  docOf sampleHero (skillsWithLevel 5)
    [("roots", sampleRootsJson), ("education", .arr [sampleEducationJson])]

/-- The valid document with only `roots`. -/
def sampleDocRootsOnly : Json :=
  docOf sampleHero (skillsWithLevel 5) [("roots", sampleRootsJson)]

/-- The valid document with only a non-empty `education`. -/
def sampleDocEduOnly : Json :=
  docOf sampleHero (skillsWithLevel 5) [("education", .arr [sampleEducationJson])]

/-- Every field-level rule satisfied, but `roots` absent and `education`
the empty array (the spec's §8 scenario). -/
def sampleDocNeither : Json :=
  docOf sampleHero (skillsWithLevel 5) [("education", .arr [])]

/-- The P2 document: `hero.name` missing and `skills[0].skills[0].level = 7`. -/
def sampleDocMultiError : Json :=
  docOf heroNoName (skillsWithLevel 7) [("roots", sampleRootsJson)]

/-- A document lacking both `roots` and `education` that also fails a
field-level check (`hero.name` missing). -/
def sampleDocBaseError : Json :=
  docOf heroNoName (skillsWithLevel 5) []

/-- The typed value `ProfileSchema` produces for `sampleDoc`. -/
def sampleProfileVal : Profile :=
  { hero := { name := "Lauri", headline := "EM", tagline := "T", location := "FI",
              impactStats := [⟨"s1", "270+", "h", "L", "D", none⟩,
                              ⟨"s2", "270+", "h", "L", "D", none⟩,
                              ⟨"s3", "270+", "h", "L", "D", none⟩],
              ctaLinks := [⟨"Email", "mailto:lauri@example.com", "mail"⟩] },
    highlight := ⟨"Award", "Cat", "Ctx", "Desc", none⟩,
    experience := [⟨"e1", "Acme", "Dev", ⟨"2022-03", none⟩, "full-time", none,
                    false, "S", ⟨"C", ["th"], none, [⟨"1", "m"⟩]⟩, ["ts"]⟩],
    philosophy := [⟨"p1", "T", "B", none⟩, ⟨"p2", "T", "B", none⟩],
    skills := [⟨"Technical", [⟨"TS", 5, false⟩]⟩],
    roots := some ⟨"MSc", "UH", "Physics", "TI"⟩,
    education := some [⟨"ed1", "MSc", "UH", "Physics", "master", ⟨"2016", none⟩,
                        none, none⟩],
    volunteering := none,
    meta := ⟨"2026-01-01T00:00:00Z", "90KB", "https://github.com/x/y",
             none, none, none, none, none, none⟩ }

/-! ## Inversion and aggregation lemmas for the validation combinators -/

theorem errs_zip2 {α β : Type} (ra : ZRes α) (rb : ZRes β) :
    errs (zip2 ra rb) = errs ra ++ errs rb := by
  cases ra <;> cases rb <;> simp [zip2, errs]

theorem zip2_ok {α β : Type} {ra : ZRes α} {rb : ZRes β} {a : α} {b : β} :
    zip2 ra rb = .ok (a, b) ↔ ra = .ok a ∧ rb = .ok b := by
  cases ra <;> cases rb <;> simp [zip2]

theorem map_ok {α β : Type} {r : ZRes α} {f : α → β} {b : β} :
    r.map f = .ok b ↔ ∃ a, r = .ok a ∧ f a = b := by
  cases r <;> simp [Except.map]

theorem errs_map {α β : Type} (r : ZRes α) (f : α → β) :
    errs (r.map f) = errs r := by
  cases r <;> simp [Except.map, errs]

theorem withSeg_ok {α : Type} {s : Seg} {r : ZRes α} {a : α} :
    withSeg s r = .ok a ↔ r = .ok a := by
  cases r <;> simp [withSeg]

theorem errs_withSeg {α : Type} (s : Seg) (r : ZRes α) :
    errs (withSeg s r) = (errs r).map fun i => ⟨s :: i.path, i.message⟩ := by
  cases r <;> simp [withSeg, errs]

theorem error_of_errs_ne_nil {α : Type} {r : ZRes α} (h : errs r ≠ []) :
    r = .error (errs r) := by
  cases r with
  | ok _ => simp [errs] at h
  | error e => rfl

theorem reqField_ok {α : Type} {o : List (String × Json)} {k : String}
    {p : Json → ZRes α} {a : α} :
    reqField o k p = .ok a ↔ ∃ v, jGet o k = some v ∧ p v = .ok a := by
  unfold reqField
  cases hj : jGet o k with
  | none => simp
  | some v => simp [withSeg_ok]

theorem optField_ok {α : Type} {o : List (String × Json)} {k : String}
    {p : Json → ZRes α} {oa : Option α} :
    optField o k p = .ok oa ↔
      (jGet o k = none ∧ oa = none) ∨
      (∃ v a, jGet o k = some v ∧ p v = .ok a ∧ oa = some a) := by
  unfold optField
  cases hj : jGet o k with
  | none => simp; tauto
  | some v =>
      simp [map_ok, withSeg_ok]
      constructor
      · rintro ⟨a, ha, rfl⟩; exact ⟨a, ha, rfl⟩
      · rintro ⟨a, ha, rfl⟩; exact ⟨a, ha, rfl⟩

theorem defField_ok {α : Type} {o : List (String × Json)} {k : String} {d : α}
    {p : Json → ZRes α} {a : α} :
    defField o k d p = .ok a ↔
      (jGet o k = none ∧ a = d) ∨
      (∃ v, jGet o k = some v ∧ p v = .ok a) := by
  unfold defField
  cases hj : jGet o k with
  | none => simp; tauto
  | some v => simp [withSeg_ok]

theorem parseStr_ok {j : Json} {s : String} :
    parseStr j = .ok s ↔ j = .str s := by
  cases j <;> simp [parseStr]

theorem parseStrCheck_ok {c : String → Bool} {m : String} {j : Json} {s : String} :
    parseStrCheck c m j = .ok s ↔ j = .str s ∧ c s = true := by
  cases j
  case str t =>
    by_cases hc : c t = true
    · simp only [parseStrCheck, hc, if_true, Json.str.injEq]
      constructor
      · rintro h; cases h; exact ⟨rfl, hc⟩
      · rintro ⟨rfl, _⟩; rfl
    · simp only [parseStrCheck, hc, if_false, Json.str.injEq]
      constructor
      · rintro h; cases h
      · rintro ⟨rfl, h⟩; exact absurd h hc
  all_goals simp [parseStrCheck]

theorem parseBool_ok {j : Json} {b : Bool} :
    parseBool j = .ok b ↔ j = .bool b := by
  cases j <;> simp [parseBool]

theorem parseNum_ok {j : Json} {q : ℚ} :
    parseNum j = .ok q ↔ j = .num q := by
  cases j <;> simp [parseNum]

theorem parseNumRange_ok {lo hi : ℚ} {j : Json} {q : ℚ} :
    parseNumRange lo hi j = .ok q ↔ j = .num q ∧ lo ≤ q ∧ q ≤ hi := by
  cases j
  case num t =>
    constructor
    · intro h
      by_cases h1 : t < lo <;> by_cases h2 : hi < t <;>
        simp only [parseNumRange, h1, h2, if_true, if_false,
          List.nil_append, List.append_nil, List.cons_append] at h
      · exact absurd h (by simp)
      · exact absurd h (by simp)
      · exact absurd h (by simp)
      · cases h; exact ⟨rfl, not_lt.mp h1, not_lt.mp h2⟩
    · rintro ⟨h, hlo, hhi⟩
      injection h with h; subst h
      simp [parseNumRange, not_lt.mpr hlo, not_lt.mpr hhi]
  all_goals simp [parseNumRange]

theorem parseEnum_ok {allowed : List String} {j : Json} {s : String} :
    parseEnum allowed j = .ok s ↔ j = .str s ∧ allowed.contains s = true := by
  cases j
  case str t =>
    by_cases hc : allowed.contains t = true
    · simp only [parseEnum, hc, if_true, Json.str.injEq]
      constructor
      · rintro h; cases h; exact ⟨rfl, hc⟩
      · rintro ⟨rfl, _⟩; rfl
    · simp only [parseEnum, hc, if_false, Json.str.injEq]
      constructor
      · rintro h; cases h
      · rintro ⟨rfl, h⟩; exact absurd h hc
  all_goals simp [parseEnum]

theorem parseNullable_ok {α : Type} {p : Json → ZRes α} {j : Json} {oa : Option α} :
    parseNullable p j = .ok oa ↔
      (j = .null ∧ oa = none) ∨
      (j ≠ .null ∧ ∃ a, p j = .ok a ∧ oa = some a) := by
  cases j
  case null => simp [parseNullable, eq_comm]
  all_goals
    simp only [parseNullable, map_ok]
    constructor
    · rintro ⟨a, ha, rfl⟩
      exact .inr ⟨(by simp), a, ha, rfl⟩
    · rintro (⟨h, _⟩ | ⟨_, a, ha, rfl⟩); · cases h
      exact ⟨a, ha, rfl⟩

theorem parseElems_ok_length {α : Type} {p : Json → ZRes α} :
    ∀ {xs : List Json} {n : Nat} {vs : List α},
      parseElems p n xs = .ok vs → vs.length = xs.length := by
  intro xs
  induction xs with
  | nil => intro n vs h; simp [parseElems] at h; subst h; rfl
  | cons x xs ih =>
      intro n vs h
      simp only [parseElems] at h
      obtain ⟨⟨a, as⟩, hz, rfl⟩ := map_ok.mp h
      obtain ⟨_, htl⟩ := zip2_ok.mp hz
      simp [ih htl]

theorem parseElems_idx {α : Type} {p : Json → ZRes α} :
    ∀ {xs : List Json} {n : Nat} {vs : List α},
      parseElems p n xs = .ok vs →
      ∀ (i : Nat) (x : Json), xs[i]? = some x →
        ∃ v, vs[i]? = some v ∧ p x = .ok v := by
  intro xs
  induction xs with
  | nil => intro n vs _ i x hx; simp at hx
  | cons y ys ih =>
      intro n vs h i x hx
      simp only [parseElems] at h
      obtain ⟨⟨a, as⟩, hz, rfl⟩ := map_ok.mp h
      obtain ⟨hhd, htl⟩ := zip2_ok.mp hz
      cases i with
      | zero =>
          simp at hx; subst hx
          exact ⟨a, by simp, withSeg_ok.mp hhd⟩
      | succ i =>
          simp only [List.getElem?_cons_succ] at hx ⊢
          exact ih htl i x hx

theorem parseElems_roundtrip {α : Type} {p : Json → ZRes α} {toJ : α → Json}
    (hp : ∀ j v, p j = .ok v → p (toJ v) = .ok v) :
    ∀ {xs : List Json} {n m : Nat} {vs : List α},
      parseElems p n xs = .ok vs → parseElems p m (vs.map toJ) = .ok vs := by
  intro xs
  induction xs with
  | nil => intro n m vs h; simp [parseElems] at h; subst h; simp [parseElems]
  | cons y ys ih =>
      intro n m vs h
      simp only [parseElems] at h
      obtain ⟨⟨a, as⟩, hz, rfl⟩ := map_ok.mp h
      obtain ⟨hhd, htl⟩ := zip2_ok.mp hz
      simp only [List.map_cons, parseElems]
      refine map_ok.mpr ⟨(a, as), zip2_ok.mpr ⟨?_, ?_⟩, rfl⟩
      · exact withSeg_ok.mpr (hp _ _ (withSeg_ok.mp hhd))
      · exact ih htl

theorem mem_errs_parseElems {α : Type} {p : Json → ZRes α} :
    ∀ {xs : List Json} {n : Nat} {i : Issue},
      i ∈ errs (parseElems p n xs) → ∃ k t, i.path = Seg.idx k :: t := by
  intro xs
  induction xs with
  | nil => intro n i h; simp [parseElems, errs] at h
  | cons y ys ih =>
      intro n i h
      simp only [parseElems, errs_map, errs_zip2, List.mem_append] at h
      rcases h with h | h
      · rw [errs_withSeg] at h
        obtain ⟨i', _, rfl⟩ := List.mem_map.mp h
        exact ⟨n, i'.path, rfl⟩
      · exact ih h

theorem mem_errs_reqField {α : Type} {o : List (String × Json)} {k : String}
    {p : Json → ZRes α} {i : Issue} (h : i ∈ errs (reqField o k p)) :
    ∃ t, i.path = Seg.field k :: t := by
  unfold reqField at h
  cases hj : jGet o k with
  | none => rw [hj] at h; simp [errs] at h; subst h; exact ⟨[], rfl⟩
  | some v =>
      rw [hj, errs_withSeg] at h
      obtain ⟨i', _, rfl⟩ := List.mem_map.mp h
      exact ⟨i'.path, rfl⟩

theorem mem_errs_optField {α : Type} {o : List (String × Json)} {k : String}
    {p : Json → ZRes α} {i : Issue} (h : i ∈ errs (optField o k p)) :
    ∃ t, i.path = Seg.field k :: t := by
  unfold optField at h
  cases hj : jGet o k with
  | none => rw [hj] at h; simp [errs] at h
  | some v =>
      rw [hj, errs_map, errs_withSeg] at h
      obtain ⟨i', _, rfl⟩ := List.mem_map.mp h
      exact ⟨i'.path, rfl⟩

theorem mem_errs_defField {α : Type} {o : List (String × Json)} {k : String}
    {d : α} {p : Json → ZRes α} {i : Issue} (h : i ∈ errs (defField o k d p)) :
    ∃ t, i.path = Seg.field k :: t := by
  unfold defField at h
  cases hj : jGet o k with
  | none => rw [hj] at h; simp [errs] at h
  | some v =>
      rw [hj, errs_withSeg] at h
      obtain ⟨i', _, rfl⟩ := List.mem_map.mp h
      exact ⟨i'.path, rfl⟩

theorem parseArrSized_ok {α : Type} {lo hi : Option Nat} {p : Json → ZRes α}
    {j : Json} {vs : List α} :
    parseArrSized lo hi p j = .ok vs ↔
      ∃ xs, j = .arr xs ∧ sizeIssues lo hi xs.length = [] ∧
        parseElems p 0 xs = .ok vs := by
  cases j
  case arr xs =>
      simp only [parseArrSized]
      cases hs : sizeIssues lo hi xs.length with
      | nil => simp [hs]
      | cons e es =>
          simp only
          constructor
          · rintro h; cases h
          · rintro ⟨xs', hx, hnil, _⟩
            injection hx with hx; subst hx
            rw [hs] at hnil; cases hnil
  all_goals simp [parseArrSized]

theorem mem_sizeIssues_path {lo hi : Option Nat} {len : Nat} {i : Issue}
    (h : i ∈ sizeIssues lo hi len) : i.path = [] := by
  unfold sizeIssues at h
  rcases List.mem_append.mp h with h | h <;>
    · cases lo <;> cases hi <;> simp_all <;> split at h <;> simp_all

theorem mem_errs_parseArrSized_arr {α : Type} {lo hi : Option Nat}
    {p : Json → ZRes α} {xs : List Json} {i : Issue} :
    i ∈ errs (parseArrSized lo hi p (.arr xs)) ↔
      i ∈ sizeIssues lo hi xs.length ∨ i ∈ errs (parseElems p 0 xs) := by
  simp only [parseArrSized]
  cases hs : sizeIssues lo hi xs.length with
  | nil => simp
  | cons e es => simp [errs, List.mem_append, or_assoc]

/-! ## Round-trip lemmas: re-parsing a serialized parse result succeeds -/

theorem parseImpactStat_roundtrip (v : ImpactStat) :
    parseImpactStat (impactStatToJson v) = .ok v := by
  cases v with
  | mk id value unit label detail icon => cases icon <;> rfl

theorem parseCtaLink_href {j : Json} {v : CtaLink} (h : parseCtaLink j = .ok v) :
    jsUrlParses v.href = true := by
  cases j
  case obj o =>
    simp only [parseCtaLink] at h
    obtain ⟨⟨a, b, c⟩, hz, rfl⟩ := map_ok.mp h
    obtain ⟨h1, hz⟩ := zip2_ok.mp hz
    obtain ⟨h2, h3⟩ := zip2_ok.mp hz
    obtain ⟨v2, hj2, hp2⟩ := reqField_ok.mp h2
    exact (parseStrCheck_ok.mp hp2).2
  all_goals simp [parseCtaLink] at h

theorem parseCtaLink_roundtrip {j : Json} {v : CtaLink}
    (h : parseCtaLink j = .ok v) : parseCtaLink (ctaLinkToJson v) = .ok v := by
  have hc := parseCtaLink_href h
  cases v with
  | mk label href icon =>
      simp only [ctaLinkToJson, parseCtaLink]
      refine map_ok.mpr ⟨(label, href, icon), zip2_ok.mpr ⟨rfl, zip2_ok.mpr ⟨?_, rfl⟩⟩, rfl⟩
      refine reqField_ok.mpr ⟨.str href, rfl, ?_⟩
      exact parseStrCheck_ok.mpr ⟨rfl, hc⟩

theorem parseElems_map_str (l : List String) (n : Nat) :
    parseElems parseStr n (l.map Json.str) = .ok l := by
  induction l generalizing n with
  | nil => rfl
  | cons s l ih =>
      simp only [List.map_cons, parseElems]
      rw [ih]
      rfl

theorem parseStrArr_roundtrip (l : List String) :
    parseArr parseStr (.arr (l.map Json.str)) = .ok l := by
  simp only [parseArr, parseArrSized, sizeIssues, List.nil_append]
  rw [parseElems_map_str]

theorem parseMetric_roundtrip (v : Metric) :
    parseMetric (metricToJson v) = .ok v := rfl

theorem parsePeriod_roundtrip (v : Period) :
    parsePeriod (periodToJson v) = .ok v := by
  cases v with
  | mk start stop => cases stop <;> rfl

theorem parsePhilosophySource_roundtrip (v : PhilosophySource) :
    parsePhilosophySource (philosophySourceToJson v) = .ok v := rfl

theorem parseGasTownRole_roundtrip (v : GasTownRole) :
    parseGasTownRole (gasTownRoleToJson v) = .ok v := rfl

theorem parseAgentCredit_roundtrip (v : AgentCredit) :
    parseAgentCredit (agentCreditToJson v) = .ok v := rfl

theorem parseBuildStats_roundtrip (v : BuildStats) :
    parseBuildStats (buildStatsToJson v) = .ok v := rfl

theorem parseRoots_roundtrip (v : Roots) :
    parseRoots (rootsToJson v) = .ok v := rfl

theorem parseDeepDive_roundtrip {j : Json} {v : DeepDive}
    (h : parseDeepDive j = .ok v) : parseDeepDive (deepDiveToJson v) = .ok v := by
  cases j
  case obj o =>
    simp only [parseDeepDive] at h
    obtain ⟨⟨a, b, c, d⟩, hz, rfl⟩ := map_ok.mp h
    obtain ⟨h1, hz⟩ := zip2_ok.mp hz
    obtain ⟨h2, hz⟩ := zip2_ok.mp hz
    obtain ⟨h3, h4⟩ := zip2_ok.mp hz
    obtain ⟨v4, hj4, hp4⟩ := reqField_ok.mp h4
    obtain ⟨xs4, rfl, hs4, he4⟩ := parseArrSized_ok.mp hp4
    rcases optField_ok.mp h3 with ⟨hj3, rfl⟩ | ⟨v3, a3, hj3, hp3, rfl⟩
    · refine map_ok.mpr ⟨(a, b, none, d), ?_, rfl⟩
      refine zip2_ok.mpr ⟨rfl, zip2_ok.mpr ⟨?_, zip2_ok.mpr ⟨rfl, ?_⟩⟩⟩
      · exact reqField_ok.mpr ⟨_, rfl, parseStrArr_roundtrip b⟩
      · refine reqField_ok.mpr ⟨_, rfl, ?_⟩
        exact parseArrSized_ok.mpr ⟨_, rfl, rfl,
          parseElems_roundtrip (fun _ _ _ => parseMetric_roundtrip _) he4⟩
    · obtain ⟨xs3, rfl, hs3, he3⟩ := parseArrSized_ok.mp hp3
      refine map_ok.mpr ⟨(a, b, some a3, d), ?_, rfl⟩
      refine zip2_ok.mpr ⟨rfl, zip2_ok.mpr ⟨?_, zip2_ok.mpr ⟨?_, ?_⟩⟩⟩
      · exact reqField_ok.mpr ⟨_, rfl, parseStrArr_roundtrip b⟩
      · refine optField_ok.mpr (.inr ⟨_, a3, rfl, ?_, rfl⟩)
        exact parseStrArr_roundtrip a3
      · refine reqField_ok.mpr ⟨_, rfl, ?_⟩
        exact parseArrSized_ok.mpr ⟨_, rfl, rfl,
          parseElems_roundtrip (fun _ _ _ => parseMetric_roundtrip _) he4⟩
  all_goals simp [parseDeepDive] at h

theorem parseSkill_roundtrip {j : Json} {v : Skill} (h : parseSkill j = .ok v) :
    parseSkill (skillToJson v) = .ok v := by
  cases j
  case obj o =>
    simp only [parseSkill] at h
    obtain ⟨⟨a, b, c⟩, hz, rfl⟩ := map_ok.mp h
    obtain ⟨h1, hz⟩ := zip2_ok.mp hz
    obtain ⟨h2, h3⟩ := zip2_ok.mp hz
    obtain ⟨v2, hj2, hp2⟩ := reqField_ok.mp h2
    obtain ⟨-, hlo, hhi⟩ := parseNumRange_ok.mp hp2
    refine map_ok.mpr ⟨(a, b, c), zip2_ok.mpr ⟨rfl, zip2_ok.mpr ⟨?_, rfl⟩⟩, rfl⟩
    exact reqField_ok.mpr ⟨.num b, rfl, parseNumRange_ok.mpr ⟨rfl, hlo, hhi⟩⟩
  all_goals simp [parseSkill] at h

theorem parseSkillCategory_roundtrip {j : Json} {v : SkillCategory}
    (h : parseSkillCategory j = .ok v) :
    parseSkillCategory (skillCategoryToJson v) = .ok v := by
  cases j
  case obj o =>
    simp only [parseSkillCategory] at h
    obtain ⟨⟨a, b⟩, hz, rfl⟩ := map_ok.mp h
    obtain ⟨h1, h2⟩ := zip2_ok.mp hz
    obtain ⟨v2, hj2, hp2⟩ := reqField_ok.mp h2
    obtain ⟨xs, rfl, hs, he⟩ := parseArrSized_ok.mp hp2
    refine map_ok.mpr ⟨(a, b), zip2_ok.mpr ⟨rfl, ?_⟩, rfl⟩
    refine reqField_ok.mpr ⟨_, rfl, ?_⟩
    exact parseArrSized_ok.mpr ⟨_, rfl, rfl,
      parseElems_roundtrip (fun _ _ hx => parseSkill_roundtrip hx) he⟩
  all_goals simp [parseSkillCategory] at h

theorem parsePhilosophy_roundtrip {j : Json} {v : Philosophy}
    (h : parsePhilosophy j = .ok v) : parsePhilosophy (philosophyToJson v) = .ok v := by
  cases j
  case obj o =>
    simp only [parsePhilosophy] at h
    obtain ⟨⟨a, b, c, d⟩, hz, rfl⟩ := map_ok.mp h
    obtain ⟨h1, hz⟩ := zip2_ok.mp hz
    obtain ⟨h2, hz⟩ := zip2_ok.mp hz
    obtain ⟨h3, h4⟩ := zip2_ok.mp hz
    rcases optField_ok.mp h4 with ⟨-, rfl⟩ | ⟨v4, a4, -, hp4, rfl⟩
    · simp only [philosophyToJson, Option.map_none', optEntry, List.append_nil,
        parsePhilosophy]
      exact map_ok.mpr ⟨(a, b, c, none), zip2_ok.mpr ⟨rfl, zip2_ok.mpr ⟨rfl,
        zip2_ok.mpr ⟨rfl, rfl⟩⟩⟩, rfl⟩
    · simp only [philosophyToJson, Option.map_some', optEntry, List.cons_append,
        List.nil_append, parsePhilosophy]
      refine map_ok.mpr ⟨(a, b, c, some a4), ?_, rfl⟩
      refine zip2_ok.mpr ⟨rfl, zip2_ok.mpr ⟨rfl, zip2_ok.mpr ⟨rfl, ?_⟩⟩⟩
      exact optField_ok.mpr (.inr ⟨_, a4, rfl, parsePhilosophySource_roundtrip a4, rfl⟩)
  all_goals simp [parsePhilosophy] at h

theorem parseHighlight_roundtrip {j : Json} {v : Highlight}
    (h : parseHighlight j = .ok v) : parseHighlight (highlightToJson v) = .ok v := by
  cases j
  case obj o =>
    simp only [parseHighlight] at h
    obtain ⟨⟨a, b, c, d, e⟩, hz, rfl⟩ := map_ok.mp h
    obtain ⟨h1, hz⟩ := zip2_ok.mp hz
    obtain ⟨h2, hz⟩ := zip2_ok.mp hz
    obtain ⟨h3, hz⟩ := zip2_ok.mp hz
    obtain ⟨h4, h5⟩ := zip2_ok.mp hz
    rcases optField_ok.mp h5 with ⟨-, rfl⟩ | ⟨v5, a5, -, hp5, rfl⟩
    · simp only [highlightToJson, Option.map_none', optEntry, List.append_nil,
        parseHighlight]
      exact map_ok.mpr ⟨(a, b, c, d, none), zip2_ok.mpr ⟨rfl, zip2_ok.mpr ⟨rfl,
        zip2_ok.mpr ⟨rfl, zip2_ok.mpr ⟨rfl, rfl⟩⟩⟩⟩, rfl⟩
    · obtain ⟨rfl, hc⟩ := parseStrCheck_ok.mp hp5
      refine map_ok.mpr ⟨(a, b, c, d, some a5), zip2_ok.mpr ⟨rfl, zip2_ok.mpr ⟨rfl,
        zip2_ok.mpr ⟨rfl, zip2_ok.mpr ⟨rfl, ?_⟩⟩⟩⟩, rfl⟩
      exact optField_ok.mpr (.inr ⟨_, a5, rfl, parseStrCheck_ok.mpr ⟨rfl, hc⟩, rfl⟩)
  all_goals simp [parseHighlight] at h

theorem parseExperience_roundtrip {j : Json} {v : Experience}
    (h : parseExperience j = .ok v) : parseExperience (experienceToJson v) = .ok v := by
  cases j
  case obj o =>
    simp only [parseExperience] at h
    obtain ⟨⟨a, b, c, d, e, f, g, hh, i, k⟩, hz, rfl⟩ := map_ok.mp h
    obtain ⟨h1, hz⟩ := zip2_ok.mp hz
    obtain ⟨h2, hz⟩ := zip2_ok.mp hz
    obtain ⟨h3, hz⟩ := zip2_ok.mp hz
    obtain ⟨h4, hz⟩ := zip2_ok.mp hz
    obtain ⟨h5, hz⟩ := zip2_ok.mp hz
    obtain ⟨h6, hz⟩ := zip2_ok.mp hz
    obtain ⟨h7, hz⟩ := zip2_ok.mp hz
    obtain ⟨h8, hz⟩ := zip2_ok.mp hz
    obtain ⟨h9, h10⟩ := zip2_ok.mp hz
    have hce : employmentTypes.contains e = true := by
      rcases defField_ok.mp h5 with ⟨-, rfl⟩ | ⟨v5, -, hp5⟩
      · decide
      · exact (parseEnum_ok.mp hp5).2
    obtain ⟨v9, -, hp9⟩ := reqField_ok.mp h9
    rcases optField_ok.mp h6 with ⟨-, rfl⟩ | ⟨v6, a6, -, hp6, rfl⟩
    · refine map_ok.mpr ⟨(a, b, c, d, e, none, g, hh, i, k),
        zip2_ok.mpr ⟨rfl, zip2_ok.mpr ⟨rfl, zip2_ok.mpr ⟨rfl, zip2_ok.mpr ⟨?_,
        zip2_ok.mpr ⟨?_, zip2_ok.mpr ⟨rfl, zip2_ok.mpr ⟨rfl, zip2_ok.mpr ⟨rfl,
        zip2_ok.mpr ⟨?_, ?_⟩⟩⟩⟩⟩⟩⟩⟩⟩, rfl⟩
      · exact reqField_ok.mpr ⟨_, rfl, parsePeriod_roundtrip d⟩
      · exact defField_ok.mpr (.inr ⟨.str e, rfl, parseEnum_ok.mpr ⟨rfl, hce⟩⟩)
      · exact reqField_ok.mpr ⟨_, rfl, parseDeepDive_roundtrip hp9⟩
      · exact reqField_ok.mpr ⟨_, rfl, parseStrArr_roundtrip k⟩
    · have hcc : careerLevels.contains a6 = true := (parseEnum_ok.mp hp6).2
      refine map_ok.mpr ⟨(a, b, c, d, e, some a6, g, hh, i, k),
        zip2_ok.mpr ⟨rfl, zip2_ok.mpr ⟨rfl, zip2_ok.mpr ⟨rfl, zip2_ok.mpr ⟨?_,
        zip2_ok.mpr ⟨?_, zip2_ok.mpr ⟨?_, zip2_ok.mpr ⟨rfl, zip2_ok.mpr ⟨rfl,
        zip2_ok.mpr ⟨?_, ?_⟩⟩⟩⟩⟩⟩⟩⟩⟩, rfl⟩
      · exact reqField_ok.mpr ⟨_, rfl, parsePeriod_roundtrip d⟩
      · exact defField_ok.mpr (.inr ⟨.str e, rfl, parseEnum_ok.mpr ⟨rfl, hce⟩⟩)
      · exact optField_ok.mpr (.inr ⟨_, a6, rfl, parseEnum_ok.mpr ⟨rfl, hcc⟩, rfl⟩)
      · exact reqField_ok.mpr ⟨_, rfl, parseDeepDive_roundtrip hp9⟩
      · exact reqField_ok.mpr ⟨_, rfl, parseStrArr_roundtrip k⟩
  all_goals simp [parseExperience] at h

theorem mapOkEq {α β : Type} {r : ZRes α} {f : α → β} {a : α} {b : β}
    (h : r = .ok a) (hb : f a = b) : r.map f = .ok b := by
  rw [h, ← hb]; rfl

theorem zip2OkOf {α β : Type} {ra : ZRes α} {rb : ZRes β} {a : α} {b : β}
    (ha : ra = .ok a) (hb : rb = .ok b) : zip2 ra rb = .ok (a, b) := by
  rw [ha, hb]; rfl

theorem parseElems_map_ok {α : Type} {p : Json → ZRes α} {toJ : α → Json}
    (hp : ∀ v, p (toJ v) = .ok v) :
    ∀ (vs : List α) (n : Nat), parseElems p n (vs.map toJ) = .ok vs := by
  intro vs
  induction vs with
  | nil => intro n; rfl
  | cons v vs ih =>
      intro n
      simp only [List.map_cons, parseElems]
      rw [ih, hp v]
      rfl

theorem parseArr_map_ok {α : Type} {p : Json → ZRes α} {toJ : α → Json}
    (hp : ∀ v, p (toJ v) = .ok v) (vs : List α) :
    parseArr p (.arr (vs.map toJ)) = .ok vs := by
  simp only [parseArr, parseArrSized, sizeIssues, List.nil_append]
  rw [parseElems_map_ok hp]

theorem parseTimelineMilestone_roundtrip (v : TimelineMilestone) :
    parseTimelineMilestone (timelineMilestoneToJson v) = .ok v := by
  obtain ⟨a, b, c, d, e, f⟩ := v
  cases e <;> cases f <;> rfl

theorem parsePolecat_roundtrip (v : Polecat) :
    parsePolecat (polecatToJson v) = .ok v := by
  simp only [polecatToJson, parsePolecat]
  exact map_ok.mpr ⟨(v.name, v.beads, v.focus), zip2_ok.mpr ⟨rfl, zip2_ok.mpr ⟨rfl,
    reqField_ok.mpr ⟨_, rfl, parseStrArr_roundtrip v.focus⟩⟩⟩, rfl⟩

theorem parseVolunteering_roundtrip (v : Volunteering) :
    parseVolunteering (volunteeringToJson v) = .ok v := by
  obtain ⟨a, b, c, d, e, f, g, i⟩ := v
  cases f <;> cases g <;> cases i <;>
    (simp only [volunteeringToJson, Option.map_some', Option.map_none', optEntry,
       List.append_nil, List.cons_append, List.nil_append, parseVolunteering]
     apply mapOkEq
     · repeat
         first
         | rfl
         | apply zip2OkOf
         | exact reqField_ok.mpr ⟨_, rfl, parsePeriod_roundtrip _⟩
         | exact optField_ok.mpr (.inr ⟨_, _, rfl, parseStrArr_roundtrip _, rfl⟩)
     · rfl)

theorem parseGasTown_roundtrip {j : Json} {v : GasTown}
    (h : parseGasTown j = .ok v) : parseGasTown (gasTownToJson v) = .ok v := by
  cases j
  case obj o =>
    simp only [parseGasTown] at h
    obtain ⟨⟨a, b, c, d, e⟩, hz, rfl⟩ := map_ok.mp h
    obtain ⟨h1, hz⟩ := zip2_ok.mp hz
    obtain ⟨h2, hz⟩ := zip2_ok.mp hz
    obtain ⟨h3, hz⟩ := zip2_ok.mp hz
    obtain ⟨h4, h5⟩ := zip2_ok.mp hz
    obtain ⟨v4, -, hp4⟩ := reqField_ok.mp h4
    obtain ⟨-, hc⟩ := parseStrCheck_ok.mp hp4
    refine map_ok.mpr ⟨(a, b, c, d, e), zip2_ok.mpr ⟨rfl, zip2_ok.mpr ⟨rfl,
      zip2_ok.mpr ⟨rfl, zip2_ok.mpr ⟨?_, ?_⟩⟩⟩⟩, rfl⟩
    · exact reqField_ok.mpr ⟨_, rfl, parseStrCheck_ok.mpr ⟨rfl, hc⟩⟩
    · exact reqField_ok.mpr ⟨_, rfl,
        parseArr_map_ok parseGasTownRole_roundtrip e⟩
  all_goals simp [parseGasTown] at h

theorem parseHero_roundtrip {j : Json} {v : Hero} (h : parseHero j = .ok v) :
    parseHero (heroToJson v) = .ok v := by
  cases j
  case obj o =>
    simp only [parseHero] at h
    obtain ⟨⟨a, b, c, d, e, f⟩, hz, rfl⟩ := map_ok.mp h
    obtain ⟨h1, hz⟩ := zip2_ok.mp hz
    obtain ⟨h2, hz⟩ := zip2_ok.mp hz
    obtain ⟨h3, hz⟩ := zip2_ok.mp hz
    obtain ⟨h4, hz⟩ := zip2_ok.mp hz
    obtain ⟨h5, h6⟩ := zip2_ok.mp hz
    obtain ⟨v5, -, hp5⟩ := reqField_ok.mp h5
    obtain ⟨xs5, rfl, hs5, he5⟩ := parseArrSized_ok.mp hp5
    obtain ⟨v6, -, hp6⟩ := reqField_ok.mp h6
    obtain ⟨xs6, rfl, -, he6⟩ := parseArrSized_ok.mp hp6
    refine map_ok.mpr ⟨(a, b, c, d, e, f), zip2_ok.mpr ⟨rfl, zip2_ok.mpr ⟨rfl,
      zip2_ok.mpr ⟨rfl, zip2_ok.mpr ⟨rfl, zip2_ok.mpr ⟨?_, ?_⟩⟩⟩⟩⟩, rfl⟩
    · refine reqField_ok.mpr ⟨_, rfl, ?_⟩
      refine parseArrSized_ok.mpr ⟨_, rfl, ?_,
        parseElems_map_ok parseImpactStat_roundtrip e 0⟩
      rw [List.length_map, parseElems_ok_length he5]
      exact hs5
    · refine reqField_ok.mpr ⟨_, rfl, ?_⟩
      exact parseArrSized_ok.mpr ⟨_, rfl, rfl,
        parseElems_roundtrip (fun _ _ hx => parseCtaLink_roundtrip hx) he6⟩
  all_goals simp [parseHero] at h

theorem parseEducation_roundtrip {j : Json} {v : Education}
    (h : parseEducation j = .ok v) : parseEducation (educationToJson v) = .ok v := by
  cases j
  case obj o =>
    simp only [parseEducation] at h
    obtain ⟨⟨a, b, c, d, e, f, g, i⟩, hz, rfl⟩ := map_ok.mp h
    obtain ⟨h1, hz⟩ := zip2_ok.mp hz
    obtain ⟨h2, hz⟩ := zip2_ok.mp hz
    obtain ⟨h3, hz⟩ := zip2_ok.mp hz
    obtain ⟨h4, hz⟩ := zip2_ok.mp hz
    obtain ⟨h5, hz⟩ := zip2_ok.mp hz
    obtain ⟨h6, hz⟩ := zip2_ok.mp hz
    obtain ⟨h7, h8⟩ := zip2_ok.mp hz
    obtain ⟨v5, -, hp5⟩ := reqField_ok.mp h5
    have hce : educationTypes.contains e = true := (parseEnum_ok.mp hp5).2
    clear h1 h2 h3 h4 h5 h6 h7 h8 hz hp5
    cases g <;> cases i <;>
      (simp only [educationToJson, Option.map_some', Option.map_none', optEntry,
         List.append_nil, List.cons_append, List.nil_append, parseEducation]
       apply mapOkEq
       · repeat
           first
           | rfl
           | apply zip2OkOf
           | exact reqField_ok.mpr ⟨_, rfl, parseEnum_ok.mpr ⟨rfl, hce⟩⟩
           | exact reqField_ok.mpr ⟨_, rfl, parsePeriod_roundtrip _⟩
           | exact optField_ok.mpr (.inr ⟨_, _, rfl, parseStrArr_roundtrip _, rfl⟩)
       · rfl)
  all_goals simp [parseEducation] at h

set_option maxHeartbeats 1000000 in
theorem parseAgenticMeta_roundtrip {j : Json} {v : AgenticMeta}
    (h : parseAgenticMeta j = .ok v) :
    parseAgenticMeta (agenticMetaToJson v) = .ok v := by
  cases j
  case obj o =>
    simp only [parseAgenticMeta] at h
    obtain ⟨⟨a, b, c, d, e, f, g, hh, i⟩, hz, rfl⟩ := map_ok.mp h
    obtain ⟨h1, hz⟩ := zip2_ok.mp hz
    obtain ⟨h2, hz⟩ := zip2_ok.mp hz
    obtain ⟨h3, hz⟩ := zip2_ok.mp hz
    obtain ⟨h4, hz⟩ := zip2_ok.mp hz
    obtain ⟨h5, hz⟩ := zip2_ok.mp hz
    obtain ⟨h6, hz⟩ := zip2_ok.mp hz
    obtain ⟨h7, hz⟩ := zip2_ok.mp hz
    obtain ⟨h8, h9⟩ := zip2_ok.mp hz
    obtain ⟨v1, -, hp1⟩ := reqField_ok.mp h1
    obtain ⟨-, hcd⟩ := parseStrCheck_ok.mp hp1
    obtain ⟨v3, -, hp3⟩ := reqField_ok.mp h3
    obtain ⟨-, hcu⟩ := parseStrCheck_ok.mp hp3
    clear h1 h2 h3 h4 h5 h7 h8 h9 hz hp1 hp3
    rcases optField_ok.mp h6 with ⟨-, rfl⟩ | ⟨v6, a6, -, hp6, rfl⟩
    · cases d <;> cases e <;> cases g <;> cases hh <;> cases i <;>
        (simp only [agenticMetaToJson, Option.map_some', Option.map_none', optEntry,
           List.append_nil, List.cons_append, List.nil_append, parseAgenticMeta]
         apply mapOkEq
         · repeat
             first
             | apply zip2OkOf
             | rfl
             | exact reqField_ok.mpr ⟨_, rfl, parseStrCheck_ok.mpr ⟨rfl, hcd⟩⟩
             | exact reqField_ok.mpr ⟨_, rfl, parseStrCheck_ok.mpr ⟨rfl, hcu⟩⟩
             | exact optField_ok.mpr (.inr ⟨_, _, rfl,
                 parseArr_map_ok parseAgentCredit_roundtrip _, rfl⟩)
             | exact optField_ok.mpr (.inr ⟨_, _, rfl,
                 parseArr_map_ok parsePolecat_roundtrip _, rfl⟩)
             | exact optField_ok.mpr (.inr ⟨_, _, rfl,
                 parseArr_map_ok parseTimelineMilestone_roundtrip _, rfl⟩)
         · rfl)
    · cases d <;> cases e <;> cases g <;> cases hh <;> cases i <;>
        (simp only [agenticMetaToJson, Option.map_some', Option.map_none', optEntry,
           List.append_nil, List.cons_append, List.nil_append, parseAgenticMeta]
         apply mapOkEq
         · repeat
             first
             | apply zip2OkOf
             | rfl
             | exact reqField_ok.mpr ⟨_, rfl, parseStrCheck_ok.mpr ⟨rfl, hcd⟩⟩
             | exact reqField_ok.mpr ⟨_, rfl, parseStrCheck_ok.mpr ⟨rfl, hcu⟩⟩
             | exact optField_ok.mpr (.inr ⟨_, _, rfl,
                 parseArr_map_ok parseAgentCredit_roundtrip _, rfl⟩)
             | exact optField_ok.mpr (.inr ⟨_, _, rfl,
                 parseGasTown_roundtrip hp6, rfl⟩)
             | exact optField_ok.mpr (.inr ⟨_, _, rfl,
                 parseArr_map_ok parsePolecat_roundtrip _, rfl⟩)
             | exact optField_ok.mpr (.inr ⟨_, _, rfl,
                 parseArr_map_ok parseTimelineMilestone_roundtrip _, rfl⟩)
         · rfl)
  all_goals simp [parseAgenticMeta] at h

set_option maxHeartbeats 1000000 in
theorem parseProfileBase_roundtrip {j : Json} {p : Profile}
    (h : parseProfileBase j = .ok p) :
    parseProfileBase (profileToJson p) = .ok p := by
  cases j
  case obj o =>
    simp only [parseProfileBase] at h
    obtain ⟨⟨a, b, c, d, e, f, g, hh, i⟩, hz, rfl⟩ := map_ok.mp h
    obtain ⟨h1, hz⟩ := zip2_ok.mp hz
    obtain ⟨h2, hz⟩ := zip2_ok.mp hz
    obtain ⟨h3, hz⟩ := zip2_ok.mp hz
    obtain ⟨h4, hz⟩ := zip2_ok.mp hz
    obtain ⟨h5, hz⟩ := zip2_ok.mp hz
    obtain ⟨h6, hz⟩ := zip2_ok.mp hz
    obtain ⟨h7, hz⟩ := zip2_ok.mp hz
    obtain ⟨h8, h9⟩ := zip2_ok.mp hz
    obtain ⟨v1, -, hp1⟩ := reqField_ok.mp h1
    obtain ⟨v2, -, hp2⟩ := reqField_ok.mp h2
    obtain ⟨v3, -, hp3⟩ := reqField_ok.mp h3
    obtain ⟨xs3, rfl, -, he3⟩ := parseArrSized_ok.mp hp3
    obtain ⟨v4, -, hp4⟩ := reqField_ok.mp h4
    obtain ⟨xs4, rfl, hs4, he4⟩ := parseArrSized_ok.mp hp4
    obtain ⟨v5, -, hp5⟩ := reqField_ok.mp h5
    obtain ⟨xs5, rfl, -, he5⟩ := parseArrSized_ok.mp hp5
    obtain ⟨v9, -, hp9⟩ := reqField_ok.mp h9
    clear h1 h2 h3 h4 h5 h6 h8 h9 hz hp3 hp4 hp5
    rcases optField_ok.mp h7 with ⟨-, rfl⟩ | ⟨v7, a7, -, hp7, rfl⟩
    · cases f <;> cases hh <;>
        (simp only [profileToJson, Option.map_some', Option.map_none', optEntry,
           List.append_nil, List.cons_append, List.nil_append, parseProfileBase]
         apply mapOkEq
         · repeat
             first
             | apply zip2OkOf
             | rfl
             | exact reqField_ok.mpr ⟨_, rfl, parseHero_roundtrip hp1⟩
             | exact reqField_ok.mpr ⟨_, rfl, parseHighlight_roundtrip hp2⟩
             | exact reqField_ok.mpr ⟨_, rfl, parseArrSized_ok.mpr ⟨_, rfl, rfl,
                 parseElems_roundtrip (fun _ _ hx => parseExperience_roundtrip hx) he3⟩⟩
             | exact reqField_ok.mpr ⟨_, rfl, parseArrSized_ok.mpr ⟨_, rfl,
                 (by rw [List.length_map, parseElems_ok_length he4]; exact hs4),
                 parseElems_roundtrip (fun _ _ hx => parsePhilosophy_roundtrip hx) he4⟩⟩
             | exact reqField_ok.mpr ⟨_, rfl, parseArrSized_ok.mpr ⟨_, rfl, rfl,
                 parseElems_roundtrip (fun _ _ hx => parseSkillCategory_roundtrip hx) he5⟩⟩
             | exact optField_ok.mpr (.inr ⟨_, _, rfl,
                 parseArr_map_ok parseVolunteering_roundtrip _, rfl⟩)
             | exact reqField_ok.mpr ⟨_, rfl, parseAgenticMeta_roundtrip hp9⟩
         · rfl)
    · obtain ⟨xs7, rfl, -, he7⟩ := parseArrSized_ok.mp hp7
      cases f <;> cases hh <;>
        (simp only [profileToJson, Option.map_some', Option.map_none', optEntry,
           List.append_nil, List.cons_append, List.nil_append, parseProfileBase]
         apply mapOkEq
         · repeat
             first
             | apply zip2OkOf
             | rfl
             | exact reqField_ok.mpr ⟨_, rfl, parseHero_roundtrip hp1⟩
             | exact reqField_ok.mpr ⟨_, rfl, parseHighlight_roundtrip hp2⟩
             | exact reqField_ok.mpr ⟨_, rfl, parseArrSized_ok.mpr ⟨_, rfl, rfl,
                 parseElems_roundtrip (fun _ _ hx => parseExperience_roundtrip hx) he3⟩⟩
             | exact reqField_ok.mpr ⟨_, rfl, parseArrSized_ok.mpr ⟨_, rfl,
                 (by rw [List.length_map, parseElems_ok_length he4]; exact hs4),
                 parseElems_roundtrip (fun _ _ hx => parsePhilosophy_roundtrip hx) he4⟩⟩
             | exact reqField_ok.mpr ⟨_, rfl, parseArrSized_ok.mpr ⟨_, rfl, rfl,
                 parseElems_roundtrip (fun _ _ hx => parseSkillCategory_roundtrip hx) he5⟩⟩
             | exact optField_ok.mpr (.inr ⟨_, _, rfl, parseArrSized_ok.mpr ⟨_, rfl, rfl,
                 parseElems_roundtrip (fun _ _ hx => parseEducation_roundtrip hx) he7⟩, rfl⟩)
             | exact optField_ok.mpr (.inr ⟨_, _, rfl,
                 parseArr_map_ok parseVolunteering_roundtrip _, rfl⟩)
             | exact reqField_ok.mpr ⟨_, rfl, parseAgenticMeta_roundtrip hp9⟩
         · rfl)
  all_goals simp [parseProfileBase] at h

theorem parseProfile_eq_of_base {j : Json} {q : Profile}
    (hb : parseProfileBase j = .ok q) :
    parseProfile j =
      if profileInvariant q = true then .ok q else .error [rootsEduIssue] := by
  unfold parseProfile; rw [hb]

theorem parseProfile_eq_of_base_err {j : Json} {e : List Issue}
    (hb : parseProfileBase j = .error e) : parseProfile j = .error e := by
  unfold parseProfile; rw [hb]

theorem parseProfile_roundtrip {j : Json} {p : Profile}
    (h : parseProfile j = .ok p) : parseProfile (profileToJson p) = .ok p := by
  cases hb : parseProfileBase j with
  | error e => rw [parseProfile_eq_of_base_err hb] at h; cases h
  | ok q =>
      rw [parseProfile_eq_of_base hb] at h
      by_cases hinv : profileInvariant q = true
      · rw [if_pos hinv] at h
        injection h with h; subst h
        rw [parseProfile_eq_of_base (parseProfileBase_roundtrip hb), if_pos hinv]
      · rw [if_neg hinv] at h; cases h

/-! ## Error-shape lemmas used by the error-handling claims -/

theorem mem_errs_reqField_some {α : Type} {o : List (String × Json)} {k : String}
    {p : Json → ZRes α} {v : Json} (hj : jGet o k = some v) :
    errs (reqField o k p) =
      (errs (p v)).map fun i => ⟨Seg.field k :: i.path, i.message⟩ := by
  unfold reqField; rw [hj, errs_withSeg]

theorem mem_errs_optField_some {α : Type} {o : List (String × Json)} {k : String}
    {p : Json → ZRes α} {v : Json} (hj : jGet o k = some v) :
    errs (optField o k p) =
      (errs (p v)).map fun i => ⟨Seg.field k :: i.path, i.message⟩ := by
  unfold optField; rw [hj, errs_map, errs_withSeg]

theorem profileInvariant_iff (p : Profile) :
    profileInvariant p = true ↔
      (p.roots.isSome = true ∨ 0 < (p.education.getD []).length) := by
  unfold profileInvariant
  cases he : p.education with
  | none => simp
  | some es => simp [he]

theorem parseProfileBase_root_issues {j : Json} {i : Issue}
    (h : i ∈ errs (parseProfileBase j)) :
    (∃ k t, i.path = Seg.field k :: t) ∨ i = ⟨[], "Expected object"⟩ := by
  cases j
  case obj o =>
    left
    simp only [parseProfileBase, errs_map, errs_zip2, List.mem_append] at h
    rcases h with h | h | h | h | h | h | h | h | h
    · exact ⟨_, mem_errs_reqField h⟩
    · exact ⟨_, mem_errs_reqField h⟩
    · exact ⟨_, mem_errs_reqField h⟩
    · exact ⟨_, mem_errs_reqField h⟩
    · exact ⟨_, mem_errs_reqField h⟩
    · exact ⟨_, mem_errs_optField h⟩
    · exact ⟨_, mem_errs_optField h⟩
    · exact ⟨_, mem_errs_optField h⟩
    · exact ⟨_, mem_errs_reqField h⟩
  all_goals
    simp only [parseProfileBase, errs, List.mem_singleton] at h
    subst h
    right
    rfl

theorem parseProfile_ok_base {j : Json} {p : Profile}
    (h : parseProfile j = .ok p) : parseProfileBase j = .ok p := by
  cases hb : parseProfileBase j with
  | error e => rw [parseProfile_eq_of_base_err hb] at h; cases h
  | ok q =>
      rw [parseProfile_eq_of_base hb] at h
      by_cases hinv : profileInvariant q = true
      · rw [if_pos hinv] at h; injection h with h; rw [h]
      · rw [if_neg hinv] at h; cases h

theorem error_of_mem_errs {α : Type} {r : ZRes α} {i : Issue}
    (h : i ∈ errs r) : r = .error (errs r) :=
  error_of_errs_ne_nil (by intro he; rw [he] at h; cases h)

/-- The `experience` array of the raw input document, when present. -/
def experienceInputs (j : Json) : Option (List Json) :=
  match j with
  | .obj o =>
      match jGet o "experience" with
      | some (.arr xs) => some xs
      | _ => none
  | _ => none

/-- The `skills` array of the raw input document, when present. -/
def skillsInputs (j : Json) : Option (List Json) :=
  match j with
  | .obj o =>
      match jGet o "skills" with
      | some (.arr xs) => some xs
      | _ => none
  | _ => none

theorem parseExperience_defaults {o : List (String × Json)} {e : Experience}
    (h : parseExperience (.obj o) = .ok e) :
    (jGet o "employmentType" = none → e.employmentType = "full-time") ∧
    (jGet o "isEarlyCareer" = none → e.isEarlyCareer = false) := by
  simp only [parseExperience] at h
  obtain ⟨⟨a, b, c, d, e5, f, g, hh, i, k⟩, hz, rfl⟩ := map_ok.mp h
  obtain ⟨h1, hz⟩ := zip2_ok.mp hz
  obtain ⟨h2, hz⟩ := zip2_ok.mp hz
  obtain ⟨h3, hz⟩ := zip2_ok.mp hz
  obtain ⟨h4, hz⟩ := zip2_ok.mp hz
  obtain ⟨h5, hz⟩ := zip2_ok.mp hz
  obtain ⟨h6, hz⟩ := zip2_ok.mp hz
  obtain ⟨h7, hz⟩ := zip2_ok.mp hz
  constructor
  · intro hj
    rcases defField_ok.mp h5 with ⟨-, hd⟩ | ⟨v5, hj5, -⟩
    · exact hd
    · rw [hj] at hj5; cases hj5
  · intro hj
    rcases defField_ok.mp h7 with ⟨-, hd⟩ | ⟨v7, hj7, -⟩
    · exact hd
    · rw [hj] at hj7; cases hj7

theorem parseSkill_default {o : List (String × Json)} {s : Skill}
    (h : parseSkill (.obj o) = .ok s) :
    jGet o "highlight" = none → s.highlight = false := by
  simp only [parseSkill] at h
  obtain ⟨⟨a, b, c⟩, hz, rfl⟩ := map_ok.mp h
  obtain ⟨h1, hz⟩ := zip2_ok.mp hz
  obtain ⟨h2, h3⟩ := zip2_ok.mp hz
  intro hj
  rcases defField_ok.mp h3 with ⟨-, hd⟩ | ⟨v3, hj3, -⟩
  · exact hd
  · rw [hj] at hj3; cases hj3

theorem parseSkillCategory_skills {o : List (String × Json)} {c : SkillCategory}
    (h : parseSkillCategory (.obj o) = .ok c) {xs : List Json}
    (hj : jGet o "skills" = some (.arr xs)) :
    parseElems parseSkill 0 xs = .ok c.skills := by
  simp only [parseSkillCategory] at h
  obtain ⟨⟨a, b⟩, hz, rfl⟩ := map_ok.mp h
  obtain ⟨h1, h2⟩ := zip2_ok.mp hz
  obtain ⟨v2, hj2, hp2⟩ := reqField_ok.mp h2
  rw [hj] at hj2; injection hj2 with hj2; subst hj2
  exact hp2

theorem parseProfileBase_experience {o : List (String × Json)} {p : Profile}
    (h : parseProfileBase (.obj o) = .ok p) {xs : List Json}
    (hj : jGet o "experience" = some (.arr xs)) :
    parseElems parseExperience 0 xs = .ok p.experience := by
  simp only [parseProfileBase] at h
  obtain ⟨⟨a, b, c, d, e, f, g, hh, i⟩, hz, rfl⟩ := map_ok.mp h
  obtain ⟨h1, hz⟩ := zip2_ok.mp hz
  obtain ⟨h2, hz⟩ := zip2_ok.mp hz
  obtain ⟨h3, hz⟩ := zip2_ok.mp hz
  obtain ⟨v3, hj3, hp3⟩ := reqField_ok.mp h3
  rw [hj] at hj3; injection hj3 with hj3; subst hj3
  exact hp3

theorem parseProfileBase_skills {o : List (String × Json)} {p : Profile}
    (h : parseProfileBase (.obj o) = .ok p) {xs : List Json}
    (hj : jGet o "skills" = some (.arr xs)) :
    parseElems parseSkillCategory 0 xs = .ok p.skills := by
  simp only [parseProfileBase] at h
  obtain ⟨⟨a, b, c, d, e, f, g, hh, i⟩, hz, rfl⟩ := map_ok.mp h
  obtain ⟨h1, hz⟩ := zip2_ok.mp hz
  obtain ⟨h2, hz⟩ := zip2_ok.mp hz
  obtain ⟨h3, hz⟩ := zip2_ok.mp hz
  obtain ⟨h4, hz⟩ := zip2_ok.mp hz
  obtain ⟨h5, hz⟩ := zip2_ok.mp hz
  obtain ⟨v5, hj5, hp5⟩ := reqField_ok.mp h5
  rw [hj] at hj5; injection hj5 with hj5; subst hj5
  exact hp5

theorem fieldPathNe1 {k k' : String} (hk : ¬ k = k') {t : List Seg} :
    ¬ (Seg.field k :: t) = [Seg.field k'] := by
  intro hc
  injection hc with h1 h2
  injection h1 with h1
  exact hk h1

theorem fieldPathNe2 {k k1 k2 : String} (hk : ¬ k = k1) {t : List Seg} :
    ¬ (Seg.field k :: t) = [Seg.field k1, Seg.field k2] := by
  intro hc
  injection hc with h1 h2
  injection h1 with h1
  exact hk h1

theorem parseNumRange15_err {q : ℚ} (h : ¬ (1 ≤ q ∧ q ≤ 5)) :
    ∃ es, parseNumRange 1 5 (.num q) = .error es ∧
      ∃ i ∈ es, i.path = ([] : List Seg) := by
  rcases not_and_or.mp h with h1 | h2
  · have hq : q < 1 := not_le.mp h1
    refine ⟨⟨[], "Number too small"⟩ ::
      (if (5 : ℚ) < q then [⟨[], "Number too big"⟩] else []), ?_,
      ⟨[], "Number too small"⟩, List.mem_cons_self _ _, rfl⟩
    simp only [parseNumRange, if_pos hq, List.singleton_append]
  · have hq : (5 : ℚ) < q := not_le.mp h2
    have hq1 : ¬ q < 1 := by linarith
    refine ⟨[⟨[], "Number too big"⟩], ?_, ⟨[], "Number too big"⟩,
      List.mem_cons_self _ _, rfl⟩
    simp only [parseNumRange, if_pos hq, if_neg hq1, List.nil_append]

theorem sizeIssues34_err {n : Nat} (h : n < 3 ∨ 4 < n) :
    ∃ i ∈ sizeIssues (some 3) (some 4) n, i.path = ([] : List Seg) := by
  rcases h with h | h
  · exact ⟨⟨[], "Array too small"⟩, by simp [sizeIssues, h], rfl⟩
  · exact ⟨⟨[], "Array too big"⟩, by simp [sizeIssues, h], rfl⟩

theorem sizeIssues34_nil {n : Nat} (h3 : 3 ≤ n) (h4 : n ≤ 4) :
    sizeIssues (some 3) (some 4) n = [] := by
  simp [sizeIssues, not_lt.mpr h3, not_lt.mpr h4]

theorem parseSkill_level_err {o : List (String × Json)} {q : ℚ}
    (hj : jGet o "level" = some (.num q)) (h : ¬ (1 ≤ q ∧ q ≤ 5)) :
    ∃ i ∈ errs (parseSkill (.obj o)), i.path = [Seg.field "level"] := by
  obtain ⟨es, hes, i0, hi0, hp0⟩ := parseNumRange15_err h
  refine ⟨⟨Seg.field "level" :: i0.path, i0.message⟩, ?_, by rw [hp0]⟩
  simp only [parseSkill, errs_map, errs_zip2, List.mem_append]
  refine Or.inr (Or.inl ?_)
  rw [mem_errs_reqField_some hj]
  refine List.mem_map.mpr ⟨i0, ?_, rfl⟩
  rw [hes]
  exact hi0

theorem parseSkill_level_ok {o : List (String × Json)} {q : ℚ} {i : Issue}
    (hj : jGet o "level" = some (.num q)) (h1 : 1 ≤ q) (h5 : q ≤ 5)
    (h : i ∈ errs (parseSkill (.obj o))) : ¬ i.path = [Seg.field "level"] := by
  simp only [parseSkill, errs_map, errs_zip2, List.mem_append] at h
  rcases h with h | h | h
  · obtain ⟨t, hp⟩ := mem_errs_reqField h
    rw [hp]; exact fieldPathNe1 (by decide)
  · rw [mem_errs_reqField_some hj] at h
    obtain ⟨i', hi', rfl⟩ := List.mem_map.mp h
    rw [parseNumRange_ok.mpr ⟨rfl, h1, h5⟩] at hi'
    cases hi'
  · obtain ⟨t, hp⟩ := mem_errs_defField h
    rw [hp]; exact fieldPathNe1 (by decide)

theorem parseHero_impactStats_err {ho : List (String × Json)} {xs : List Json}
    (hj : jGet ho "impactStats" = some (.arr xs))
    (h : xs.length < 3 ∨ 4 < xs.length) :
    ∃ i ∈ errs (parseHero (.obj ho)), i.path = [Seg.field "impactStats"] := by
  obtain ⟨i0, hi0, hp0⟩ := sizeIssues34_err h
  refine ⟨⟨Seg.field "impactStats" :: i0.path, i0.message⟩, ?_, by rw [hp0]⟩
  simp only [parseHero, errs_map, errs_zip2, List.mem_append]
  refine Or.inr (Or.inr (Or.inr (Or.inr (Or.inl ?_))))
  rw [mem_errs_reqField_some hj]
  refine List.mem_map.mpr ⟨i0, ?_, rfl⟩
  exact mem_errs_parseArrSized_arr.mpr (Or.inl hi0)

theorem parseHero_impactStats_ok {ho : List (String × Json)} {xs : List Json}
    {i : Issue} (hj : jGet ho "impactStats" = some (.arr xs))
    (h3 : 3 ≤ xs.length) (h4 : xs.length ≤ 4)
    (h : i ∈ errs (parseHero (.obj ho))) :
    ¬ i.path = [Seg.field "impactStats"] := by
  simp only [parseHero, errs_map, errs_zip2, List.mem_append] at h
  rcases h with h | h | h | h | h | h
  · obtain ⟨t, hp⟩ := mem_errs_reqField h
    rw [hp]; exact fieldPathNe1 (by decide)
  · obtain ⟨t, hp⟩ := mem_errs_reqField h
    rw [hp]; exact fieldPathNe1 (by decide)
  · obtain ⟨t, hp⟩ := mem_errs_reqField h
    rw [hp]; exact fieldPathNe1 (by decide)
  · obtain ⟨t, hp⟩ := mem_errs_reqField h
    rw [hp]; exact fieldPathNe1 (by decide)
  · rw [mem_errs_reqField_some hj] at h
    obtain ⟨i', hi', rfl⟩ := List.mem_map.mp h
    rcases mem_errs_parseArrSized_arr.mp hi' with hs | he
    · rw [sizeIssues34_nil h3 h4] at hs; cases hs
    · obtain ⟨k2, t2, hp2⟩ := mem_errs_parseElems he
      intro hc
      injection hc with h1 h2
      rw [hp2] at h2
      cases h2
  · obtain ⟨t, hp⟩ := mem_errs_reqField h
    rw [hp]; exact fieldPathNe1 (by decide)

theorem profile_impactStats_err {o ho : List (String × Json)} {xs : List Json}
    (hjh : jGet o "hero" = some (.obj ho))
    (hj : jGet ho "impactStats" = some (.arr xs))
    (h : xs.length < 3 ∨ 4 < xs.length) :
    ∃ e, parseProfile (.obj o) = .error e ∧
      ∃ i ∈ e, i.path = [Seg.field "hero", Seg.field "impactStats"] := by
  obtain ⟨i1, hi1, hp1⟩ := parseHero_impactStats_err hj h
  have hmem : (⟨Seg.field "hero" :: i1.path, i1.message⟩ : Issue) ∈
      errs (parseProfileBase (.obj o)) := by
    simp only [parseProfileBase, errs_map, errs_zip2, List.mem_append]
    refine Or.inl ?_
    rw [mem_errs_reqField_some hjh]
    exact List.mem_map.mpr ⟨i1, hi1, rfl⟩
  have hbe := error_of_mem_errs hmem
  exact ⟨_, parseProfile_eq_of_base_err hbe, _, hmem, by rw [hp1]⟩

theorem profile_impactStats_ok {o ho : List (String × Json)} {xs : List Json}
    {i : Issue} {e : List Issue}
    (hjh : jGet o "hero" = some (.obj ho))
    (hj : jGet ho "impactStats" = some (.arr xs))
    (h3 : 3 ≤ xs.length) (h4 : xs.length ≤ 4)
    (hpe : parseProfile (.obj o) = .error e) (hi : i ∈ e) :
    ¬ i.path = [Seg.field "hero", Seg.field "impactStats"] := by
  cases hb : parseProfileBase (.obj o) with
  | error e2 =>
      rw [parseProfile_eq_of_base_err hb] at hpe
      injection hpe with hpe
      subst hpe
      have hmem : i ∈ errs (parseProfileBase (.obj o)) := by rw [hb]; exact hi
      simp only [parseProfileBase, errs_map, errs_zip2, List.mem_append] at hmem
      rcases hmem with h | h | h | h | h | h | h | h | h
      · rw [mem_errs_reqField_some hjh] at h
        obtain ⟨i', hi', rfl⟩ := List.mem_map.mp h
        intro hc
        injection hc with h1 h2
        exact parseHero_impactStats_ok hj h3 h4 hi' h2
      · obtain ⟨t, hp⟩ := mem_errs_reqField h
        rw [hp]; exact fieldPathNe2 (by decide)
      · obtain ⟨t, hp⟩ := mem_errs_reqField h
        rw [hp]; exact fieldPathNe2 (by decide)
      · obtain ⟨t, hp⟩ := mem_errs_reqField h
        rw [hp]; exact fieldPathNe2 (by decide)
      · obtain ⟨t, hp⟩ := mem_errs_reqField h
        rw [hp]; exact fieldPathNe2 (by decide)
      · obtain ⟨t, hp⟩ := mem_errs_optField h
        rw [hp]; exact fieldPathNe2 (by decide)
      · obtain ⟨t, hp⟩ := mem_errs_optField h
        rw [hp]; exact fieldPathNe2 (by decide)
      · obtain ⟨t, hp⟩ := mem_errs_optField h
        rw [hp]; exact fieldPathNe2 (by decide)
      · obtain ⟨t, hp⟩ := mem_errs_reqField h
        rw [hp]; exact fieldPathNe2 (by decide)
  | ok q =>
      rw [parseProfile_eq_of_base hb] at hpe
      by_cases hinv : profileInvariant q = true
      · rw [if_pos hinv] at hpe; cases hpe
      · rw [if_neg hinv] at hpe
        injection hpe with hpe
        subst hpe
        rcases List.mem_singleton.mp hi with rfl
        intro hc
        cases hc

theorem parseStrCheck_errs {c : String → Bool} {m s : String}
    (hc : c s = false) :
    errs (parseStrCheck c m (.str s)) = [⟨[], m⟩] := by
  simp [parseStrCheck, hc, errs]

theorem parseCtaLink_href_err {o : List (String × Json)} {s : String}
    (hj : jGet o "href" = some (.str s)) (hc : jsUrlParses s = false) :
    ∃ e, parseCtaLink (.obj o) = .error e ∧
      ∃ i ∈ e, i.path = [Seg.field "href"] := by
  have hmem : (⟨[Seg.field "href"], "Invalid url"⟩ : Issue) ∈
      errs (parseCtaLink (.obj o)) := by
    simp only [parseCtaLink, errs_map, errs_zip2, List.mem_append]
    refine Or.inr (Or.inl ?_)
    rw [mem_errs_reqField_some hj, parseStrCheck_errs hc]
    exact List.mem_map.mpr ⟨⟨[], "Invalid url"⟩, List.mem_cons_self _ _, rfl⟩
  exact ⟨_, error_of_mem_errs hmem, _, hmem, rfl⟩

theorem parseCtaLink_href_ok {o : List (String × Json)} {s : String} {i : Issue}
    (hj : jGet o "href" = some (.str s)) (hc : jsUrlParses s = true)
    (h : i ∈ errs (parseCtaLink (.obj o))) : ¬ i.path = [Seg.field "href"] := by
  simp only [parseCtaLink, errs_map, errs_zip2, List.mem_append] at h
  rcases h with h | h | h
  · obtain ⟨t, hp⟩ := mem_errs_reqField h
    rw [hp]; exact fieldPathNe1 (by decide)
  · rw [mem_errs_reqField_some hj] at h
    obtain ⟨i', hi', rfl⟩ := List.mem_map.mp h
    rw [parseStrCheck_ok.mpr ⟨rfl, hc⟩] at hi'
    cases hi'
  · obtain ⟨t, hp⟩ := mem_errs_reqField h
    rw [hp]; exact fieldPathNe1 (by decide)

theorem parseHighlight_mediaUrl_err {o : List (String × Json)} {s : String}
    (hj : jGet o "mediaUrl" = some (.str s)) (hc : jsUrlParses s = false) :
    ∃ e, parseHighlight (.obj o) = .error e ∧
      ∃ i ∈ e, i.path = [Seg.field "mediaUrl"] := by
  have hmem : (⟨[Seg.field "mediaUrl"], "Invalid url"⟩ : Issue) ∈
      errs (parseHighlight (.obj o)) := by
    simp only [parseHighlight, errs_map, errs_zip2, List.mem_append]
    refine Or.inr (Or.inr (Or.inr (Or.inr ?_)))
    rw [mem_errs_optField_some hj, parseStrCheck_errs hc]
    exact List.mem_map.mpr ⟨⟨[], "Invalid url"⟩, List.mem_cons_self _ _, rfl⟩
  exact ⟨_, error_of_mem_errs hmem, _, hmem, rfl⟩

theorem parseAgenticMeta_sourceUrl_err {o : List (String × Json)} {s : String}
    (hj : jGet o "sourceUrl" = some (.str s)) (hc : jsUrlParses s = false) :
    ∃ e, parseAgenticMeta (.obj o) = .error e ∧
      ∃ i ∈ e, i.path = [Seg.field "sourceUrl"] := by
  have hmem : (⟨[Seg.field "sourceUrl"], "Invalid url"⟩ : Issue) ∈
      errs (parseAgenticMeta (.obj o)) := by
    simp only [parseAgenticMeta, errs_map, errs_zip2, List.mem_append]
    refine Or.inr (Or.inr (Or.inl ?_))
    rw [mem_errs_reqField_some hj, parseStrCheck_errs hc]
    exact List.mem_map.mpr ⟨⟨[], "Invalid url"⟩, List.mem_cons_self _ _, rfl⟩
  exact ⟨_, error_of_mem_errs hmem, _, hmem, rfl⟩

theorem dropWhile_c0_eq_self {l : List Char}
    (h : ∀ c ∈ l, c0OrSpace c = false) : l.dropWhile c0OrSpace = l := by
  cases l with
  | nil => rfl
  | cons a t => simp [List.dropWhile_cons, h a (List.mem_cons_self a t)]

theorem urlPreprocess_eq_self {l : List Char}
    (h : ∀ c ∈ l, c0OrSpace c = false ∧ tabOrNewline c = false) :
    urlPreprocess l = l := by
  unfold urlPreprocess
  rw [dropWhile_c0_eq_self fun c hc => (h c hc).1]
  rw [dropWhile_c0_eq_self fun c hc => (h c (List.mem_reverse.mp hc)).1]
  rw [List.reverse_reverse]
  exact List.filter_eq_self.mpr fun c hc => by simp [(h c hc).2]

theorem jsUrlParses_mailto (r : String) (h : wellFormedMailtoRest r = true) :
    jsUrlParses ("mailto:" ++ r) = true := by
  obtain ⟨rl⟩ := r
  simp only [wellFormedMailtoRest, Bool.and_eq_true] at h
  obtain ⟨hvis, hss⟩ := h
  rw [Bool.not_eq_true'] at hss
  have hvis' : ∀ c ∈ rl, 32 < c.toNat := by
    intro c hc
    have hall := List.all_eq_true.mp hvis c hc
    rw [Bool.and_eq_true] at hall
    exact of_decide_eq_true hall.1
  have hpre : urlPreprocess ('m' :: 'a' :: 'i' :: 'l' :: 't' :: 'o' :: ':' :: rl) =
      'm' :: 'a' :: 'i' :: 'l' :: 't' :: 'o' :: ':' :: rl := by
    apply urlPreprocess_eq_self
    intro c hc
    simp only [List.mem_cons] at hc
    rcases hc with rfl | rfl | rfl | rfl | rfl | rfl | rfl | hc
    · exact ⟨by decide, by decide⟩
    · exact ⟨by decide, by decide⟩
    · exact ⟨by decide, by decide⟩
    · exact ⟨by decide, by decide⟩
    · exact ⟨by decide, by decide⟩
    · exact ⟨by decide, by decide⟩
    · exact ⟨by decide, by decide⟩
    · have h32 := hvis' c hc
      constructor
      · simp only [c0OrSpace]
        exact decide_eq_false (by omega)
      · simp only [tabOrNewline, Bool.or_eq_false_iff, beq_eq_false_iff_ne,
          ne_eq]
        refine ⟨⟨?_, ?_⟩, ?_⟩ <;> omega
  show urlCore (urlPreprocess (String.toList ("mailto:" ++ String.mk rl))) =
    true
  have hTL : ("mailto:" ++ String.mk rl).toList =
      'm' :: 'a' :: 'i' :: 'l' :: 't' :: 'o' :: ':' :: rl := rfl
  rw [hTL, hpre]
  show (if startsDoubleSlash rl then
      authorityOk false ((rl.drop 2).takeWhile fun c => !authTermChar false c)
    else true) = true
  have hss' : startsDoubleSlash rl = false := hss
  simp [hss']

/-- The typed value produced for the document whose `roots` is absent and
whose `education` is the empty array. -/
def sampleProfileNeitherVal : Profile :=
  { sampleProfileVal with roots := none, education := some [] }

/-- The `Required` issue reported for a missing `hero.name`. -/
def heroNameIssue : Issue := ⟨[Seg.field "hero", Seg.field "name"], "Required"⟩

/-- The range issue reported at `skills[0].skills[0].level`. -/
def levelIssue : Issue :=
  ⟨[Seg.field "skills", Seg.idx 0, Seg.field "skills", Seg.idx 0,
    Seg.field "level"], "Number too big"⟩

/-! ## The claims -/

/-- C1: profile validation rejects a document exactly when neither `roots`
nor a non-empty `education` is present.  For every document whose base
object parse succeeds with typed value `p`, validation succeeds iff `roots`
is present or `education` is present and non-empty, and when both are
missing it fails with exactly the document-level roots/education
violation. -/
theorem c1_roots_education (j : Json) (p : Profile)
    (hb : parseProfileBase j = .ok p) :
    (parseProfile j = .ok p ↔
      (p.roots.isSome = true ∨ 0 < (p.education.getD []).length)) ∧
    (p.roots = none → (p.education.getD []).length = 0 →
      parseProfile j = .error [rootsEduIssue]) := by
  have heq := parseProfile_eq_of_base hb
  constructor
  · by_cases hinv : profileInvariant p = true
    · rw [heq, if_pos hinv]
      exact ⟨fun _ => (profileInvariant_iff p).mp hinv, fun _ => rfl⟩
    · rw [heq, if_neg hinv]
      constructor
      · intro hcon; cases hcon
      · intro hcond; exact absurd ((profileInvariant_iff p).mpr hcond) hinv
  · intro hr he
    have hinv : ¬ profileInvariant p = true := by
      intro hcon
      rcases (profileInvariant_iff p).mp hcon with h | h
      · rw [hr] at h; cases h
      · rw [he] at h; exact absurd h (lt_irrefl 0)
    rw [heq, if_neg hinv]

/-- Witness for C1: the fully valid sample document (both `roots` and a
non-empty `education`) validates, and the same document with `roots`
removed and `education` emptied is rejected with exactly the
document-level violation. -/
theorem c1_witness :
    ((parseProfile sampleDoc = .ok sampleProfileVal ↔
        (sampleProfileVal.roots.isSome = true ∨
          0 < (sampleProfileVal.education.getD []).length)) ∧
      (sampleProfileVal.roots = none →
        (sampleProfileVal.education.getD []).length = 0 →
        parseProfile sampleDoc = .error [rootsEduIssue])) ∧
    parseProfile sampleDocNeither = .error [rootsEduIssue] :=
  ⟨c1_roots_education sampleDoc sampleProfileVal (by decide),
   (c1_roots_education sampleDocNeither sampleProfileNeitherVal (by decide)).2
     (by decide) (by decide)⟩

/-- C2 counterexample: the claim says non-integer levels are rejected, but
the schema's `level` check is `z.number().min(1).max(5)` with no `.int()`:
the non-integer level `2.5` is accepted, both at the skill level and for a
whole document. -/
theorem c2_counterexample :
    parseSkill (.obj (sampleSkillFields (mkRat 5 2))) =
      .ok ⟨"TS", mkRat 5 2, false⟩ ∧
    (mkRat 5 2).den = 2 ∧
    parseProfile (docOf sampleHero (skillsWithLevel (mkRat 5 2))
        [("roots", sampleRootsJson), ("education", .arr [sampleEducationJson])]) =
      .ok { sampleProfileVal with
              skills := [⟨"Technical", [⟨"TS", mkRat 5 2, false⟩]⟩] } := by
  refine ⟨by decide, by decide, by decide⟩

/-- C2 (amended): `level` is accepted exactly when it is a number in the
closed interval [1, 5] — 0 and 6 are rejected with a violation at the
skill's `level` path and integers 1–5 are accepted, but non-integers inside
the range (such as 2.5) are accepted too, since the source has no `.int()`
check. -/
theorem c2_level_range (o : List (String × Json)) (q : ℚ)
    (hj : jGet o "level" = some (.num q)) :
    (¬ (1 ≤ q ∧ q ≤ 5) →
      ∃ e, parseSkill (.obj o) = .error e ∧
        ∃ i ∈ e, i.path = [Seg.field "level"]) ∧
    ((1 ≤ q ∧ q ≤ 5) → ∀ e, parseSkill (.obj o) = .error e →
      ∀ i ∈ e, ¬ i.path = [Seg.field "level"]) ∧
    ((1 ≤ q ∧ q ≤ 5) → ∀ name : String,
      parseSkill (.obj [("name", .str name), ("level", .num q)]) =
        .ok ⟨name, q, false⟩) := by
  refine ⟨?_, ?_, ?_⟩
  · intro h
    obtain ⟨i, hi, hp⟩ := parseSkill_level_err hj h
    exact ⟨_, error_of_mem_errs hi, i, hi, hp⟩
  · rintro ⟨h1, h5⟩ e he i hi
    have hm : i ∈ errs (parseSkill (.obj o)) := by rw [he]; exact hi
    exact parseSkill_level_ok hj h1 h5 hm
  · rintro ⟨h1, h5⟩ name
    apply mapOkEq
    · exact zip2OkOf rfl (zip2OkOf
        (reqField_ok.mpr ⟨_, rfl, parseNumRange_ok.mpr ⟨rfl, h1, h5⟩⟩) rfl)
    · rfl

/-- Witness for C2's amended theorem: level 0 and level 6 are each rejected
at the `level` path, and level 3 is accepted with the `highlight`
default. -/
theorem c2_witness :
    (∃ e, parseSkill (.obj (sampleSkillFields 0)) = .error e ∧
      ∃ i ∈ e, i.path = [Seg.field "level"]) ∧
    (∃ e, parseSkill (.obj (sampleSkillFields 6)) = .error e ∧
      ∃ i ∈ e, i.path = [Seg.field "level"]) ∧
    parseSkill (.obj [("name", .str "TS"), ("level", .num 3)]) =
      .ok ⟨"TS", 3, false⟩ :=
  ⟨(c2_level_range (sampleSkillFields 0) 0 rfl).1 (by decide),
   (c2_level_range (sampleSkillFields 6) 6 rfl).1 (by decide),
   (c2_level_range (sampleSkillFields 3) 3 rfl).2.2 (by decide) "TS"⟩

/-- C3 counterexample: the claim says a bare-year start renders unchanged
(`"2016 — Present"`), but `formatPeriod` in `TimelineItem.tsx` splits on
`-` and calls `parseInt` on the missing month, producing an invalid date
that renders as `"Invalid Date"`; and the education card renders a
`"YYYY-MM"` date as the localized year only, not month+year. -/
theorem c3_counterexample :
    formatPeriodTimeline "2016" none = "Invalid Date — Present" ∧
    ¬ formatPeriodTimeline "2016" none = "2016 — Present" ∧
    formatPeriodEducation "2022-03" (some "2023-11") = "2022 — 2023" ∧
    ¬ formatPeriodEducation "2022-03" (some "2023-11") = "Mar 2022 — Nov 2023" := by
  refine ⟨by decide, by decide, by decide, by decide⟩

/-- C3 (amended): both formatters render `"{start} — {end or 'Present'}"`,
but they treat the two date shapes differently.  `TimelineItem.tsx`
renders `"YYYY-MM"` as a localized short month plus year on both ends and
a null end as `"Present"`, while a bare-year start renders as
`"Invalid Date"`; the education card passes bare years through unchanged
(so `{start:"2016", end:null}` renders `"2016 — Present"`) but renders
`"YYYY-MM"` as the localized year only. -/
theorem c3_period_formatting :
    formatPeriodTimeline "2022-03" (some "2023-11") = "Mar 2022 — Nov 2023" ∧
    formatPeriodTimeline "2022-03" none = "Mar 2022 — Present" ∧
    formatPeriodTimeline "2016" none = "Invalid Date — Present" ∧
    formatPeriodEducation "2016" none = "2016 — Present" ∧
    formatPeriodEducation "2016" (some "2020") = "2016 — 2020" ∧
    formatPeriodEducation "2022-03" (some "2023-11") = "2022 — 2023" ∧
    (∀ s : String,
      formatPeriodTimeline s none = formatDateTimeline s ++ " — " ++ "Present") ∧
    (∀ s : String, ¬ s.toList.contains '-' = true → formatDateEducation s = s) := by
  refine ⟨by decide, by decide, by decide, by decide, by decide, by decide,
    fun s => rfl, fun s h => ?_⟩
  unfold formatDateEducation
  rw [if_pos h]

/-- C4: the impact-stat count-up parser decomposes `"270+"`, `"€0.5M+"`
and `"99.99%"` into prefix/numeric/suffix exactly as specified, and a
value with no numeric component such as `"Present"` is rendered as the
static literal string and never animated. -/
theorem c4_countup_parsing :
    parseNumericValue "270+" = ⟨"", 270, "+"⟩ ∧
    parseNumericValue "€0.5M+" = ⟨"€", mkRat 1 2, "M+"⟩ ∧
    parseNumericValue "99.99%" = ⟨"", mkRat 9999 100, "%"⟩ ∧
    parseNumericValue "Present" = ⟨"", 0, "Present"⟩ ∧
    (∀ countStr, countUpDisplay "Present" countStr = "Present") ∧
    (∀ prm, countUpAnimates "Present" prm = false) := by
  have h0 : (parseNumericValue "Present").numeric = 0 := by decide
  refine ⟨by decide, by decide, by decide, by decide,
    fun c => by simp [countUpDisplay, h0], fun prm => ?_⟩
  cases prm <;> decide

/-- C5: validation aggregates independent violations: the document missing
`hero.name` and carrying `skills[0].skills[0].level = 7` is rejected with
two distinct violations, one at each offending path. -/
theorem c5_multi_error :
    parseProfile sampleDocMultiError = .error [heroNameIssue, levelIssue] ∧
    2 ≤ ([heroNameIssue, levelIssue] : List Issue).length ∧
    ¬ heroNameIssue = levelIssue ∧
    heroNameIssue.path = [Seg.field "hero", Seg.field "name"] ∧
    levelIssue.path = [Seg.field "skills", Seg.idx 0, Seg.field "skills",
      Seg.idx 0, Seg.field "level"] := by
  refine ⟨by decide, by decide, by decide, rfl, rfl⟩

/-- C6: on any successfully validated document, absent optional fields
come back defaulted: an experience entry parsed from an input object
without `employmentType` has `employmentType = "full-time"` and without
`isEarlyCareer` has `isEarlyCareer = false`, and a skill parsed from an
input object without `highlight` has `highlight = false`. -/
theorem c6_defaults (j : Json) (p : Profile) (h : parseProfile j = .ok p) :
    (∀ (xs : List Json) (i : Nat) (eo : List (String × Json)) (e : Experience),
      experienceInputs j = some xs → xs[i]? = some (.obj eo) →
      p.experience[i]? = some e →
      (jGet eo "employmentType" = none → e.employmentType = "full-time") ∧
      (jGet eo "isEarlyCareer" = none → e.isEarlyCareer = false)) ∧
    (∀ (cs : List Json) (ci : Nat) (co : List (String × Json))
       (ss : List Json) (si : Nat) (so : List (String × Json))
       (cat : SkillCategory) (sk : Skill),
      skillsInputs j = some cs → cs[ci]? = some (.obj co) →
      jGet co "skills" = some (.arr ss) → ss[si]? = some (.obj so) →
      p.skills[ci]? = some cat → cat.skills[si]? = some sk →
      jGet so "highlight" = none → sk.highlight = false) := by
  have hb := parseProfile_ok_base h
  constructor
  · intro xs i eo e hxs hx hpe
    cases j
    case obj o =>
      simp only [experienceInputs] at hxs
      cases hje : jGet o "experience" with
      | none => rw [hje] at hxs; cases hxs
      | some v =>
          rw [hje] at hxs
          cases v
          case arr xs2 =>
            injection hxs with hxs
            subst hxs
            have he := parseProfileBase_experience hb hje
            obtain ⟨e', he', hp'⟩ := parseElems_idx he i _ hx
            rw [hpe] at he'
            injection he' with he'
            subst he'
            exact parseExperience_defaults hp'
          all_goals cases hxs
    all_goals simp [experienceInputs] at hxs
  · intro cs ci co ss si so cat sk hcs hci hjss hsi hcat hsk hhl
    cases j
    case obj o =>
      simp only [skillsInputs] at hcs
      cases hjs : jGet o "skills" with
      | none => rw [hjs] at hcs; cases hcs
      | some v =>
          rw [hjs] at hcs
          cases v
          case arr cs2 =>
            injection hcs with hcs
            subst hcs
            have he := parseProfileBase_skills hb hjs
            obtain ⟨cat', hcat', hpcat⟩ := parseElems_idx he ci _ hci
            rw [hcat] at hcat'
            injection hcat' with hcat'
            subst hcat'
            have hes := parseSkillCategory_skills hpcat hjss
            obtain ⟨sk', hsk', hpsk⟩ := parseElems_idx hes si _ hsi
            rw [hsk] at hsk'
            injection hsk' with hsk'
            subst hsk'
            exact parseSkill_default hpsk hhl
          all_goals cases hcs
    all_goals simp [skillsInputs] at hcs

/-- Witness for C6: in the sample document the experience entry omits
`employmentType` and `isEarlyCareer` and the skill omits `highlight`, and
the parsed values carry the defaults. -/
theorem c6_witness :
    (⟨"e1", "Acme", "Dev", ⟨"2022-03", none⟩, "full-time", none, false, "S",
       ⟨"C", ["th"], none, [⟨"1", "m"⟩]⟩, ["ts"]⟩ : Experience).employmentType =
        "full-time" ∧
    (⟨"e1", "Acme", "Dev", ⟨"2022-03", none⟩, "full-time", none, false, "S",
       ⟨"C", ["th"], none, [⟨"1", "m"⟩]⟩, ["ts"]⟩ : Experience).isEarlyCareer =
        false ∧
    (⟨"TS", 5, false⟩ : Skill).highlight = false := by
  have happ := c6_defaults sampleDoc sampleProfileVal (by decide)
  exact ⟨(happ.1 [sampleExperienceJson] 0 sampleExperienceFields _ rfl rfl rfl).1 rfl,
    (happ.1 [sampleExperienceJson] 0 sampleExperienceFields _ rfl rfl rfl).2 rfl,
    happ.2 [.obj (sampleSkillCatFields 5)] 0 (sampleSkillCatFields 5)
      [.obj (sampleSkillFields 5)] 0 (sampleSkillFields 5) _ _
      rfl rfl rfl rfl rfl rfl rfl⟩

/-- C7: validation is round-trip stable: serializing any typed `Profile`
produced by a successful validation back to JSON and re-validating yields
the identical typed value. -/
theorem c7_roundtrip (j : Json) (p : Profile) (h : parseProfile j = .ok p) :
    parseProfile (profileToJson p) = .ok p :=
  parseProfile_roundtrip h

/-- Witness for C7: round-tripping the typed value of the sample
document re-validates to the identical value. -/
theorem c7_witness :
    parseProfile (profileToJson sampleProfileVal) = .ok sampleProfileVal :=
  c7_roundtrip sampleDoc sampleProfileVal (by decide)

/-- C8: `ctaLinks[].href`, `highlight.mediaUrl` and `meta.sourceUrl` are
each rejected (with a violation at that field's path) when the string does
not parse as an absolute URI under `new URL`, and `ctaLinks[].href` never
produces a violation for a URL that parses — in particular every
well-formed `mailto:` URI (printable-ASCII remainder not starting with
`//`) parses, so a `mailto:` href causes no violation. -/
theorem c8_url_validation (s : String) :
    (∀ o, jGet o "href" = some (.str s) → jsUrlParses s = false →
      ∃ e, parseCtaLink (.obj o) = .error e ∧
        ∃ i ∈ e, i.path = [Seg.field "href"]) ∧
    (∀ o (i : Issue) (e : List Issue), jGet o "href" = some (.str s) →
      jsUrlParses s = true → parseCtaLink (.obj o) = .error e → i ∈ e →
      ¬ i.path = [Seg.field "href"]) ∧
    (∀ o, jGet o "mediaUrl" = some (.str s) → jsUrlParses s = false →
      ∃ e, parseHighlight (.obj o) = .error e ∧
        ∃ i ∈ e, i.path = [Seg.field "mediaUrl"]) ∧
    (∀ o, jGet o "sourceUrl" = some (.str s) → jsUrlParses s = false →
      ∃ e, parseAgenticMeta (.obj o) = .error e ∧
        ∃ i ∈ e, i.path = [Seg.field "sourceUrl"]) ∧
    (∀ r, s = "mailto:" ++ r → wellFormedMailtoRest r = true →
      jsUrlParses s = true) := by
  refine ⟨fun o hj hc => parseCtaLink_href_err hj hc,
    fun o i e hj hc hpe hi => ?_,
    fun o hj hc => parseHighlight_mediaUrl_err hj hc,
    fun o hj hc => parseAgenticMeta_sourceUrl_err hj hc,
    fun r hr hw => by rw [hr]; exact jsUrlParses_mailto r hw⟩
  have hm : i ∈ errs (parseCtaLink (.obj o)) := by rw [hpe]; exact hi
  exact parseCtaLink_href_ok hj hc hm

/-- Witness for C8: the relative reference `"/rel"` is rejected at each of
the three URL fields and the concrete mailto URI parses; moreover the
model sits on the real `new URL` acceptance boundary — a leading space is
trimmed away (`" https://example.com"` parses) while a space inside the
host is a forbidden host code point (`"http://exa mple.com"` does not
parse, nor does the hostless `"http:"`). -/
theorem c8_witness :
    (∃ e, parseCtaLink (.obj [("href", .str "/rel")]) = .error e ∧
      ∃ i ∈ e, i.path = [Seg.field "href"]) ∧
    (∃ e, parseHighlight (.obj [("mediaUrl", .str "/rel")]) = .error e ∧
      ∃ i ∈ e, i.path = [Seg.field "mediaUrl"]) ∧
    (∃ e, parseAgenticMeta (.obj [("sourceUrl", .str "/rel")]) = .error e ∧
      ∃ i ∈ e, i.path = [Seg.field "sourceUrl"]) ∧
    jsUrlParses "mailto:lauri@example.com" = true ∧
    jsUrlParses " https://example.com" = true ∧
    jsUrlParses "http://exa mple.com" = false ∧
    jsUrlParses "http:" = false :=
  ⟨(c8_url_validation "/rel").1 _ rfl (by decide),
   (c8_url_validation "/rel").2.2.1 _ rfl (by decide),
   (c8_url_validation "/rel").2.2.2.1 _ rfl (by decide),
   (c8_url_validation "mailto:lauri@example.com").2.2.2.2 "lauri@example.com"
     (by decide) (by decide),
   by decide, by decide, by decide⟩

/-- C9: `hero.impactStats` is accepted exactly when its length is 3 or 4:
any other length makes the whole validation fail with a violation at the
`hero.impactStats` path, and when the length is 3 or 4 no violation is
ever reported at that path. -/
theorem c9_impactStats (o ho : List (String × Json)) (xs : List Json)
    (hjh : jGet o "hero" = some (.obj ho))
    (hj : jGet ho "impactStats" = some (.arr xs)) :
    ((xs.length < 3 ∨ 4 < xs.length) →
      ∃ e, parseProfile (.obj o) = .error e ∧
        ∃ i ∈ e, i.path = [Seg.field "hero", Seg.field "impactStats"]) ∧
    (3 ≤ xs.length → xs.length ≤ 4 →
      ∀ (e : List Issue) (i : Issue), parseProfile (.obj o) = .error e →
        i ∈ e → ¬ i.path = [Seg.field "hero", Seg.field "impactStats"]) :=
  ⟨fun h => profile_impactStats_err hjh hj h,
   fun h3 h4 e i hpe hi => profile_impactStats_ok hjh hj h3 h4 hpe hi⟩

/-- Witness for C9: a document with only 2 impact stats is rejected at
`hero.impactStats`, as is one with 5; with 3 stats and an unrelated
violation, the reported issue is not at `hero.impactStats`. -/
theorem c9_witness :
    (∃ e, parseProfile (.obj (docFields
        (.obj (heroFieldsWith (List.replicate 2 (sampleStat "s"))))
        (skillsWithLevel 5) [("roots", sampleRootsJson)])) = .error e ∧
      ∃ i ∈ e, i.path = [Seg.field "hero", Seg.field "impactStats"]) ∧
    (∃ e, parseProfile (.obj (docFields
        (.obj (heroFieldsWith (List.replicate 5 (sampleStat "s"))))
        (skillsWithLevel 5) [("roots", sampleRootsJson)])) = .error e ∧
      ∃ i ∈ e, i.path = [Seg.field "hero", Seg.field "impactStats"]) ∧
    ¬ levelIssue.path = [Seg.field "hero", Seg.field "impactStats"] :=
  ⟨(c9_impactStats (docFields
        (.obj (heroFieldsWith (List.replicate 2 (sampleStat "s"))))
        (skillsWithLevel 5) [("roots", sampleRootsJson)])
      (heroFieldsWith (List.replicate 2 (sampleStat "s")))
      (List.replicate 2 (sampleStat "s")) rfl rfl).1 (by decide),
   (c9_impactStats (docFields
        (.obj (heroFieldsWith (List.replicate 5 (sampleStat "s"))))
        (skillsWithLevel 5) [("roots", sampleRootsJson)])
      (heroFieldsWith (List.replicate 5 (sampleStat "s")))
      (List.replicate 5 (sampleStat "s")) rfl rfl).1 (by decide),
   (c9_impactStats (docFields
        (.obj (heroFieldsWith (List.replicate 3 (sampleStat "s"))))
        (skillsWithLevel 7) [("roots", sampleRootsJson)]) _ _ rfl rfl).2
     (by decide) (by decide) [levelIssue] levelIssue (by decide) (by decide)⟩

/-- C10: the document-level roots/education violation is reported only
when the base object parse succeeds: for a document lacking both `roots`
and non-empty `education` whose base parse fails with field-level
violations, validation reports exactly those violations and the
document-level roots/education issue is not among them. -/
theorem c10_refine_not_evaluated (o : List (String × Json)) (e : List Issue)
    (_hroots : jGet o "roots" = none)
    (_hedu : jGet o "education" = none ∨ jGet o "education" = some (.arr []))
    (hb : parseProfileBase (.obj o) = .error e) :
    parseProfile (.obj o) = .error e ∧ rootsEduIssue ∉ e := by
  refine ⟨parseProfile_eq_of_base_err hb, ?_⟩
  intro hmem
  have hm2 : rootsEduIssue ∈ errs (parseProfileBase (.obj o)) := by
    rw [hb]; exact hmem
  rcases parseProfileBase_root_issues hm2 with ⟨k, t, hp⟩ | heq
  · cases hp
  · exact absurd (congrArg Issue.message heq) (by decide)

/-- Witness for C10: the document lacking both `roots` and `education`
and missing `hero.name` fails with only the `hero.name` violation; the
roots/education issue is absent. -/
theorem c10_witness :
    parseProfile (.obj (docFields heroNoName (skillsWithLevel 5) [])) =
      .error [heroNameIssue] ∧
    rootsEduIssue ∉ [heroNameIssue] :=
  c10_refine_not_evaluated (docFields heroNoName (skillsWithLevel 5) [])
    [heroNameIssue] rfl (Or.inl rfl) (by decide)

end Portfolio
